import Mathlib

/-!
Shallow embedding of the zone.js core (src/lib/zone.ts) and proofs about it.

Modelling conventions:
* JS values stored in zone property maps are modelled as `Option Int`
  (`none` plays the role of `undefined`); a property map is an association
  list, and JS `hasOwnProperty` is membership of the key in that list.
* Zones are immutable after construction (parent, name, properties), so the
  zone tree is an inductive type whose `child` constructor corresponds to
  `new Zone(parent, zoneSpec)`.
* Mutable runtime state (the zone-frame stack `_currentZoneFrame`, the
  current task `_currentTask`, the per-delegate task counters, the nested
  task-frame counter and an event log recording fired hooks) is threaded
  explicitly through every operation as a `ZState` record; tasks, which JS
  mutates in place, are threaded by value as `TaskRec`.
* User-supplied hook chains (`ZoneDelegate.invoke`, `invokeTask`,
  `scheduleTask`, `cancelTask`, `handleError`) are parameters of the
  operations that dispatch them, since their behaviour is arbitrary user
  code; theorems constrain them by hypotheses or instantiate them with
  concrete representatives defined below.
* A JS `throw` is an `Except.error`; the thrown value is an `Err`.
-/

/-- Task type: `microTask`, `macroTask`, `eventTask` (zone.ts line 521). -/
inductive TaskType where
  | microTask
  | macroTask
  | eventTask
deriving DecidableEq

/-- Task state (zone.ts line 526). -/
inductive TaskState where
  | notScheduled
  | scheduling
  | scheduled
  | running
  | canceling
  | unknown
deriving DecidableEq

/-- Rendering of a task type used in error messages (template literals). -/
def TaskType.str : TaskType → String
  | .microTask => "microTask"
  | .macroTask => "macroTask"
  | .eventTask => "eventTask"

/-- Rendering of a task state used in error messages. -/
def TaskState.str : TaskState → String
  | .notScheduled => "notScheduled"
  | .scheduling => "scheduling"
  | .scheduled => "scheduled"
  | .running => "running"
  | .canceling => "canceling"
  | .unknown => "unknown"

/-- A JS value as far as the model needs it: `none` is `undefined`. -/
abbrev JSVal := Option Int

/-- The zone tree. `root` is the zone built by
`new Zone(null, null)` (zone.ts line 1544); `child parent name props` is the
zone built by `new Zone(parent, zoneSpec)` with `zoneSpec.name = name` and
`zoneSpec.properties = props` — which is what `ZoneDelegate.fork`'s default
branch does (zone.ts line 1180). Properties are an association list of
JS values. -/
inductive Zone where
  | root
  | child (parent : Zone) (specName : String) (props : List (String × JSVal))
deriving DecidableEq

/-- The `parent` getter: `null` for the root (zone.ts lines 740-742, 761). -/
def Zone.parentZ : Zone → Option Zone
  | .root => none
  | .child p _ _ => some p

/-- The `_properties` field: `zoneSpec && zoneSpec.properties || {}`
(zone.ts line 763). -/
def Zone.properties : Zone → List (String × JSVal)
  | .root => []
  | .child _ _ props => props

/-- The `_name` field: `zoneSpec ? zoneSpec.name || 'unnamed' : '<root>'`
(zone.ts line 762); the empty string is falsy in JS. -/
def Zone.zname : Zone → String
  | .root => "<root>"
  | .child _ n _ => if n = "" then "unnamed" else n

/-- JS `this._properties.hasOwnProperty(key)` (zone.ts line 787). -/
def Zone.hasOwnProp (z : Zone) (key : String) : Bool :=
  (z.properties.find? (fun p => p.1 = key)).isSome

/-- JS `zone._properties[key]`: the stored value if the key is present,
`undefined` otherwise. -/
def Zone.propAt (z : Zone) (key : String) : JSVal :=
  match z.properties.find? (fun p => p.1 = key) with
  | some p => p.2
  | none => none

/-- `Zone.getZoneWith` (zone.ts lines 784-793): walk from `this` up the
parent chain and return the first zone whose own property map has `key`. -/
def Zone.getZoneWith (z : Zone) (key : String) : Option Zone :=
  match z with
  | .root => if Zone.hasOwnProp .root key then some .root else none
  | .child p n props =>
    if Zone.hasOwnProp (.child p n props) key then some (.child p n props)
    else Zone.getZoneWith p key

/-- `Zone.get` (zone.ts lines 773-776): `const zone = this.getZoneWith(key);
if (zone) return zone._properties[key];` — `undefined` when no zone found. -/
def Zone.get (z : Zone) (key : String) : JSVal :=
  match z.getZoneWith key with
  | some zone => zone.propAt key
  | none => none

/-- The chain of zones from `z` (inclusive) up to the root. -/
def Zone.ancestors : Zone → List Zone
  | .root => [.root]
  | .child p n props => .child p n props :: Zone.ancestors p

/-- Specification-side description of `get`, written independently of
`getZoneWith`: the first non-absent `properties[key]` walking from self to
root, `undefined` if no ancestor has the key. -/
def Zone.getSpecWalk (z : Zone) (key : String) : JSVal :=
  match z with
  | .root => Zone.propAt .root key
  | .child p n props =>
    if Zone.hasOwnProp (.child p n props) key then Zone.propAt (.child p n props) key
    else Zone.getSpecWalk p key

theorem Zone.getZoneWith_eq_find (z : Zone) (key : String) :
    z.getZoneWith key = z.ancestors.find? (fun a => a.hasOwnProp key) := by
  induction z with
  | root =>
    simp only [Zone.getZoneWith, Zone.ancestors, List.find?]
    cases h : Zone.hasOwnProp .root key <;> simp [h]
  | child p n props ih =>
    simp only [Zone.getZoneWith, Zone.ancestors, List.find?]
    cases h : Zone.hasOwnProp (.child p n props) key <;> simp [h, ih]

theorem Zone.get_eq_specWalk (z : Zone) (key : String) :
    z.get key = z.getSpecWalk key := by
  induction z with
  | root => rfl
  | child p n props ih =>
    simp only [Zone.get, Zone.getZoneWith, Zone.getSpecWalk] at *
    by_cases h : Zone.hasOwnProp (.child p n props) key
    · simp [h]
    · simpa [h] using ih

/-- The single-quote character, used when reproducing zone.ts error-message
templates that quote identifiers. -/
def sglq : String := String.singleton (Char.ofNat 39)

/-- Errors thrown by the zone core. Each constructor corresponds to one
`throw` site of zone.ts and carries the message the site builds; `userErr`
stands for an arbitrary value thrown by user code (callbacks and hooks). -/
inductive Err where
  | reschedule (msg : String)
  | transitionFail (msg : String)
  | tooManyTasks (msg : String)
  | wrongZone (msg : String)
  | userErr (n : Nat)
  | typeErr
deriving DecidableEq

/-- True for errors thrown by user code rather than by the zone core. -/
def Err.isUserErr : Err → Bool
  | .userErr _ => true
  | _ => false

/-- The `HasTaskState` snapshot passed to `onHasTask` (zone.ts lines 514-516). -/
structure HasTaskState where
  microTask : Bool
  macroTask : Bool
  eventTask : Bool
  change : TaskType
deriving DecidableEq

/-- Observable hook firings recorded by the model. A `hasTask d snap` entry
is `ZoneDelegate.hasTask` dispatching the `onHasTask` chain of delegate `d`
with snapshot `snap` (zone.ts line 1322); a `handledError e` entry is a
`ZoneDelegate.handleError` dispatch on error `e`. -/
inductive ZEvent where
  | hasTask (d : Nat) (snap : HasTaskState)
  | handledError (e : Err)
deriving DecidableEq

/-- The `TaskData` bag; only `isPeriodic` matters to the core logic
(zone.ts lines 531-546). -/
structure TaskData where
  isPeriodic : Bool
deriving DecidableEq

/-- A task, threaded by value. `zoneDelegates` carries, besides the list of
registered delegate ids, an identity stamp so that the model can express the
JS reference comparison `task._zoneDelegates === zoneDelegates` in
`Zone.scheduleTask` (zone.ts line 961). `hasCancelFn` records whether
`task.cancelFn` is set (`runTask` clears it for one-shot macro tasks). -/
structure TaskRec where
  type : TaskType
  state : TaskState
  source : String
  runCount : Int
  zone : Option Zone
  zoneDelegates : Option (Nat × List Nat)
  data : Option TaskData
  hasCancelFn : Bool
deriving DecidableEq

/-- JS `task.data && task.data.isPeriodic` as a boolean. -/
def TaskRec.isPeriodicData (t : TaskRec) : Bool :=
  match t.data with
  | some d => d.isPeriodic
  | none => false

/-- Per-delegate task counters, the `_taskCounts` field of `ZoneDelegate`
(zone.ts lines 1050-1054). -/
abbrev TaskCounts := TaskType → Int

/-- The process-wide mutable state of the core. `frame` is the zone-frame
stack (`_currentZoneFrame`, top first — the JS linked list of
`{parent, zone}` records); `currentTask` is `_currentTask`; `delegates`
maps a delegate id to its `_taskCounts`; `nested` is
`_numberOfNestedTaskFrames`; `nextId` supplies fresh identity stamps for
`zoneDelegates` arrays; `log` records hook firings in order. -/
structure ZState where
  frame : List Zone
  currentTask : Option TaskRec
  delegates : Nat → TaskCounts
  nested : Nat
  nextId : Nat
  log : List ZEvent

/-- Message of `ZoneTask._transitionTo`'s throw (zone.ts lines 1412-1414). -/
def transitionMsg (t : TaskRec) (toState fromState1 : TaskState)
    (fromState2 : Option TaskState) : String :=
  t.type.str ++ " " ++ sglq ++ t.source ++ sglq ++ ": can not transition to " ++
  sglq ++ toState.str ++ sglq ++ ", expecting state " ++ sglq ++ fromState1.str ++ sglq ++
  (match fromState2 with
   | some f2 => " or " ++ sglq ++ f2.str ++ sglq
   | none => "") ++
  ", was " ++ sglq ++ t.state.str ++ sglq ++ "."

/-- `ZoneTask._transitionTo(toState, fromState1, fromState2?)`
(zone.ts lines 1405-1416): the state is changed only when the current state
matches `fromState1` or `fromState2`; transitioning to `notScheduled` also
nulls `_zoneDelegates`; otherwise it throws and the task is unchanged. -/
def transitionTo (t : TaskRec) (toState fromState1 : TaskState)
    (fromState2 : Option TaskState) : Except Err TaskRec :=
  if t.state = fromState1 ∨ fromState2 = some t.state then
    let t1 := {t with state := toState}
    .ok (if toState = TaskState.notScheduled then {t1 with zoneDelegates := none} else t1)
  else
    .error (.transitionFail (transitionMsg t toState fromState1 fromState2))

/-- Message of the negative-counter throw (zone.ts line 1313). -/
def tooManyMsg : String := "More tasks executed then were scheduled."

/-- Pointwise update of a `TaskCounts` at one task type. -/
def setCount (c : TaskCounts) (ty : TaskType) (v : Int) : TaskCounts :=
  fun t => if t = ty then v else c t

/-- The `isEmpty` snapshot built at the 0↔1 boundary (zone.ts lines
1316-1321): one boolean per task type read from the already-updated
counters, plus the changed type. -/
def hasTaskSnap (c : TaskCounts) (ty : TaskType) : HasTaskState :=
  { microTask := c TaskType.microTask > 0
    macroTask := c TaskType.macroTask > 0
    eventTask := c TaskType.eventTask > 0
    change := ty }

/-- `ZoneDelegate._updateTaskCount(type, count)` for delegate `d`
(zone.ts lines 1308-1324): writes `prev + count` into the counter (the write
happens before the negative check, as in the source), throws when the new
value is negative, and otherwise fires `hasTask` on the owning zone with the
full snapshot whenever `prev == 0 || next == 0`. -/
def delegateUpdateTaskCount (d : Nat) (ty : TaskType) (count : Int)
    (s : ZState) : ZState × Except Err Unit :=
  let counts := s.delegates d
  let prev := counts ty
  let next := prev + count
  let counts' := setCount counts ty next
  let s1 := {s with delegates := fun i => if i = d then counts' else s.delegates i}
  if next < 0 then
    (s1, .error (.tooManyTasks tooManyMsg))
  else if prev = 0 ∨ next = 0 then
    ({s1 with log := s1.log ++ [ZEvent.hasTask d (hasTaskSnap counts' ty)]}, .ok ())
  else
    (s1, .ok ())

/-- The loop body of `Zone._updateTaskCount` (zone.ts lines 1021-1023):
`zoneDelegates[i]._updateTaskCount(task.type, count)` over the saved list;
a throw aborts the loop but keeps the updates already made. -/
def updateCountLoop (ds : List Nat) (ty : TaskType) (count : Int)
    (s : ZState) : ZState × Except Err Unit :=
  match ds with
  | [] => (s, .ok ())
  | d :: rest =>
    match delegateUpdateTaskCount d ty count s with
    | (s1, .ok ()) => updateCountLoop rest ty count s1
    | (s1, .error e) => (s1, .error e)

/-- `Zone._updateTaskCount(task, count)` (zone.ts lines 1016-1024): reads
`task._zoneDelegates` (a JS `TypeError` if it is null), nulls it when
`count == -1`, then updates every saved delegate. -/
def zoneUpdateTaskCount (t : TaskRec) (count : Int) (s : ZState) :
    TaskRec × ZState × Except Err Unit :=
  match t.zoneDelegates with
  | none => (t, s, .error .typeErr)
  | some (_, ds) =>
    let t1 := if count = -1 then {t with zoneDelegates := none} else t
    let (s1, r) := updateCountLoop ds t.type count s
    (t1, s1, r)

/-- The shape of a `ZoneDelegate.invoke` dispatch (the `onInvoke` chain with
callback, `this` and arguments already closed over): it may mutate the
process state, return a value or throw. -/
abbrev InvokeFn := ZState → ZState × Except Err JSVal

/-- The shape of a `ZoneDelegate.handleError` dispatch (the `onHandleError`
chain): may mutate state; returns the propagation boolean. -/
abbrev HandleErrorFn := Err → ZState → ZState × Bool

/-- The shape of a `ZoneDelegate.invokeTask` dispatch (the `onInvokeTask`
chain): receives the task, may mutate it and the state. -/
abbrev InvokeTaskFn := TaskRec → ZState → TaskRec × ZState × Except Err JSVal

/-- The shape of a `ZoneDelegate.scheduleTask` / `cancelTask` dispatch. -/
abbrev TaskHookFn := TaskRec → ZState → TaskRec × ZState × Except Err Unit

/-- A canonical `handleError` chain: records the dispatch in the log and
returns `ret`, touching nothing else. Used to instantiate theorems. -/
def logHandleError (ret : Bool) : HandleErrorFn :=
  fun e s => ({s with log := s.log ++ [ZEvent.handledError e]}, ret)

/-- `Zone.run` (zone.ts lines 832-841): push a `{parent, zone}` frame, invoke
through the delegate, pop the frame in the `finally` (on both the normal and
the throwing path). -/
def Zone.run (invoke : InvokeFn) (z : Zone) (s : ZState) :
    ZState × Except Err JSVal :=
  let s1 := {s with frame := z :: s.frame}
  let (s2, r) := invoke s1
  ({s2 with frame := s2.frame.tail}, r)

/-- The `catch` of `Zone.runGuarded` (zone.ts lines 859-863) around the
delegate `invoke` dispatch whose result is `p`: a thrown error is routed
through `handleError`; a `true` return rethrows it, a `false` return
swallows it and the call falls through to return `undefined`. -/
def runGuardedCatch (onHandleError : HandleErrorFn)
    (p : ZState × Except Err JSVal) : ZState × Except Err JSVal :=
  match p with
  | (s2, .ok v) => (s2, .ok v)
  | (s2, .error e) =>
    let (s2', b) := onHandleError e s2
    if b then (s2', .error e) else (s2', .ok none)

/-- `Zone.runGuarded` (zone.ts lines 851-867): as `run`, but with the
`catch` above; the frame pop is in the `finally` and happens on every
path. -/
def Zone.runGuarded (invoke : InvokeFn) (onHandleError : HandleErrorFn)
    (z : Zone) (s : ZState) : ZState × Except Err JSVal :=
  match runGuardedCatch onHandleError (invoke {s with frame := z :: s.frame}) with
  | (s3, r1) => ({s3 with frame := s3.frame.tail}, r1)

/-- Message of the descendant-check throw in `Zone.scheduleTask`
(zone.ts lines 941-942). -/
def rescheduleMsg (thisName tzName : String) : String :=
  "can not reschedule task to " ++ thisName ++
  " which is descendants of the original zone " ++ tzName

/-- The walk of `Zone.scheduleTask`'s descendant check (zone.ts lines
938-945): `newZone = this; while (newZone) { if (newZone === task.zone)
throw; newZone = newZone.parent; }`. Returns whether `tz` was found. -/
def zoneInChain (tz : Zone) : Zone → Bool
  | .root => decide (Zone.root = tz)
  | .child p n props => decide (Zone.child p n props = tz) || zoneInChain tz p

/-- `(task.zone || NO_ZONE).name` (zone.ts lines 881, 1000, 1509). -/
def taskZoneName (t : TaskRec) : String :=
  match t.zone with
  | some z => z.zname
  | none => "NO ZONE"

/-- Message of `Zone.runTask`'s owning-zone check (zone.ts lines 879-881). -/
def runWrongZoneMsg (t : TaskRec) (z : Zone) : String :=
  "A task can only be run in the zone of creation! (Creation: " ++
  taskZoneName t ++ "; Execution: " ++ z.zname ++ ")"

/-- Message of `Zone.cancelTask`'s owning-zone check (zone.ts lines 999-1000). -/
def cancelWrongZoneMsg (t : TaskRec) (z : Zone) : String :=
  "A task can only be cancelled in the zone of creation! (Creation: " ++
  taskZoneName t ++ "; Execution: " ++ z.zname ++ ")"

/-- The descendant check at the head of `Zone.scheduleTask` (zone.ts lines
936-946): when `task.zone` is set and differs from `this`, walk up from
`this` and throw if `task.zone` is found in the chain. -/
def scheduleCheck (z : Zone) (task : TaskRec) : Except Err Unit :=
  match task.zone with
  | some tz =>
    if tz ≠ z then
      if zoneInChain tz z then
        .error (.reschedule (rescheduleMsg z.zname tz.zname))
      else .ok ()
    else .ok ()
  | none => .ok ()

/-- The body of `Zone.scheduleTask` after the descendant check (zone.ts
lines 947-968): transition to `scheduling`, install a fresh `zoneDelegates`
array and bind `task.zone = this`, dispatch the delegate `scheduleTask`
(on a throw: transition to `unknown`, route through `handleError`,
rethrow), bump the counters when the returned task still carries the same
`zoneDelegates` array, and finally move `scheduling → scheduled`. -/
def scheduleTaskBody (dsched : TaskHookFn) (onHandleError : HandleErrorFn)
    (z : Zone) (task : TaskRec) (s : ZState) :
    TaskRec × ZState × Except Err Unit :=
  match transitionTo task .scheduling .notScheduled none with
    | .error e => (task, s, .error e)
    | .ok t1 =>
      let tag := s.nextId
      let t2 := {t1 with zoneDelegates := some (tag, []), zone := some z}
      let s0 := {s with nextId := s.nextId + 1}
      match dsched t2 s0 with
      | (t3, s1, .error err) =>
        match transitionTo t3 .unknown .scheduling (some .notScheduled) with
        | .error e2 => (t3, s1, .error e2)
        | .ok t4 =>
          let (s2, _) := onHandleError err s1
          (t4, s2, .error err)
      | (t3, s1, .ok ()) =>
        let sameArray : Bool :=
          match t3.zoneDelegates with
          | some (tag', _) => decide (tag' = tag)
          | none => false
        match (if sameArray then zoneUpdateTaskCount t3 1 s1 else (t3, s1, .ok ())) with
        | (t4, s2, .error e) => (t4, s2, .error e)
        | (t4, s2, .ok ()) =>
          if t4.state = .scheduling then
            match transitionTo t4 .scheduled .scheduling none with
            | .error e => (t4, s2, .error e)
            | .ok t5 => (t5, s2, .ok ())
          else (t4, s2, .ok ())

/-- `Zone.scheduleTask` (zone.ts lines 935-969): the descendant check
followed by the scheduling body. The delegate dispatch
`this._zoneDelegate.scheduleTask(this, task)` is the parameter `dsched`
(it receives the task with the fresh `zoneDelegates` array already
installed and `task.zone` already bound, exactly as in the source); the
`handleError` dispatch is `onHandleError`. The reference comparison
`task._zoneDelegates === zoneDelegates` is modelled by the identity stamp. -/
def Zone.scheduleTask (dsched : TaskHookFn) (onHandleError : HandleErrorFn)
    (z : Zone) (task : TaskRec) (s : ZState) :
    TaskRec × ZState × Except Err Unit :=
  match scheduleCheck z task with
  | .error e => (task, s, .error e)
  | .ok () => scheduleTaskBody dsched onHandleError z task s

/-- `Zone.cancelTask` (zone.ts lines 997-1014); `dcancel` is the delegate
dispatch `this._zoneDelegate.cancelTask(this, task)`. -/
def Zone.cancelTask (dcancel : TaskHookFn) (onHandleError : HandleErrorFn)
    (z : Zone) (task : TaskRec) (s : ZState) :
    TaskRec × ZState × Except Err Unit :=
  if task.zone ≠ some z then
    (task, s, .error (.wrongZone (cancelWrongZoneMsg task z)))
  else
    match transitionTo task .canceling .scheduled (some .running) with
    | .error e => (task, s, .error e)
    | .ok t1 =>
      match dcancel t1 s with
      | (t2, s1, .error err) =>
        match transitionTo t2 .unknown .canceling none with
        | .error e2 => (t2, s1, .error e2)
        | .ok t3 =>
          let (s2, _) := onHandleError err s1
          (t3, s2, .error err)
      | (t2, s1, .ok ()) =>
        match zoneUpdateTaskCount t2 (-1) s1 with
        | (t3, s2, .error e) => (t3, s2, .error e)
        | (t3, s2, .ok ()) =>
          match transitionTo t3 .notScheduled .canceling none with
          | .error e => (t3, s2, .error e)
          | .ok t4 => ({t4 with runCount := 0}, s2, .ok ())

/-- The head section of `Zone.runTask`'s `finally` block (zone.ts lines
911-923): the task bookkeeping that runs before the frame pop. If any of
its transitions or counter updates throws, that error propagates out of the
`finally` and the statements after it — the frame pop and the current-task
restore — never execute. -/
def runTaskUnwind (reEntryGuard : Bool) (task : TaskRec) (s : ZState) :
    TaskRec × ZState × Except Err Unit :=
  if task.state ≠ TaskState.notScheduled ∧ task.state ≠ TaskState.unknown then
    if task.type = TaskType.eventTask ∨ task.isPeriodicData then
      if reEntryGuard then
        match transitionTo task .scheduled .running none with
        | .ok t' => (t', s, .ok ())
        | .error e => (task, s, .error e)
      else (task, s, .ok ())
    else
      match zoneUpdateTaskCount {task with runCount := 0} (-1) s with
      | (t2, s1, .error e) => (t2, s1, .error e)
      | (t2, s1, .ok ()) =>
        if reEntryGuard then
          match transitionTo t2 .notScheduled .running (some .notScheduled) with
          | .ok t3 => (t3, s1, .ok ())
          | .error e => (t2, s1, .error e)
        else (t2, s1, .ok ())
  else (task, s, .ok ())

/-- The whole `finally` block of `Zone.runTask` (zone.ts lines 910-927):
run the bookkeeping; if it succeeds, pop the zone frame, restore the
previous current task and deliver the pending result `r`; if it throws,
that error replaces `r` and the pop/restore are skipped (JS semantics of a
throw inside `finally`). -/
def runTaskFinally (reEntryGuard : Bool) (previousTask : Option TaskRec)
    (task : TaskRec) (s : ZState) (r : Except Err JSVal) :
    TaskRec × ZState × Except Err JSVal :=
  match runTaskUnwind reEntryGuard task s with
  | (t', s', .ok ()) =>
    (t', {s' with frame := s'.frame.tail, currentTask := previousTask}, r)
  | (t', s', .error e) => (t', s', .error e)

/-- The inner `try`/`catch` of `Zone.runTask` (zone.ts lines 903-909)
around the delegate `invokeTask` dispatch whose result is `p`: a normal
value passes through; a thrown error is routed through `handleError` and
either rethrown (`true`) or swallowed (`false`, the `return` inside `try`
never happened, so the pending result becomes `undefined`). -/
def runTaskCatch (onHandleError : HandleErrorFn)
    (p : TaskRec × ZState × Except Err JSVal) :
    TaskRec × ZState × Except Err JSVal :=
  match p with
  | (t4, s2, .ok v) => (t4, s2, .ok v)
  | (t4, s2, .error e) =>
    let (s2', b) := onHandleError e s2
    if b then (t4, s2', .error e) else (t4, s2', .ok none)

/-- The `try`/`catch`/`finally` core of `Zone.runTask` once the task has
been transitioned to `running`, the run count bumped and the zone frame
pushed: dispatch `invokeTask` on the prepared task `t3` in the prepared
state `s1`, apply the catch, then the `finally`. -/
def runTaskRest (onInvokeTask : InvokeTaskFn) (onHandleError : HandleErrorFn)
    (reEntryGuard : Bool) (previousTask : Option TaskRec)
    (t3 : TaskRec) (s1 : ZState) : TaskRec × ZState × Except Err JSVal :=
  match runTaskCatch onHandleError (onInvokeTask t3 s1) with
  | (t4, s3, r1) => runTaskFinally reEntryGuard previousTask t4 s3 r1

/-- `Zone.runTask` (zone.ts lines 877-928). `onInvokeTask` is the delegate
dispatch `this._zoneDelegate.invokeTask(this, task, ...)`; `onHandleError`
is the `handleError` dispatch used by the inner `catch`. -/
def Zone.runTask (onInvokeTask : InvokeTaskFn) (onHandleError : HandleErrorFn)
    (z : Zone) (task : TaskRec) (s : ZState) :
    TaskRec × ZState × Except Err JSVal :=
  if task.zone ≠ some z then
    (task, s, .error (.wrongZone (runWrongZoneMsg task z)))
  else if task.state = TaskState.notScheduled ∧ task.type = TaskType.eventTask then
    (task, s, .ok none)
  else
    let reEntryGuard : Bool := decide (¬ task.state = TaskState.running)
    match (if reEntryGuard then transitionTo task .running .scheduled none
           else .ok task) with
    | .error e => (task, s, .error e)
    | .ok t1 =>
      let t2 := {t1 with runCount := t1.runCount + 1}
      let t3 := if t2.type = TaskType.macroTask ∧ t2.data.isSome ∧
                   t2.isPeriodicData = false
                then {t2 with hasCancelFn := false} else t2
      runTaskRest onInvokeTask onHandleError reEntryGuard s.currentTask t3
        {s with currentTask := some t2, frame := z :: s.frame}

/-- The static entry point `ZoneTask.invokeTask(task, target, args)`
(zone.ts lines 1368-1383): bump the nested-task-frame counter, bump
`task.runCount`, call `task.zone.runTask(task, ...)` (a JS `TypeError` when
`_zone` is still null), and in the `finally` drain the microtask queue when
the counter is 1, then decrement it. The global `drainMicroTaskQueue` is
the parameter `drain` (it acts on the process state only; the task being
invoked is threaded by value and is not in the microtask queue for the
event/periodic tasks this entry point is interesting for). -/
def ZoneTask.invokeTask (drain : ZState → ZState) (onInvokeTask : InvokeTaskFn)
    (onHandleError : HandleErrorFn) (task : TaskRec) (s : ZState) :
    TaskRec × ZState × Except Err JSVal :=
  let s1 := {s with nested := s.nested + 1}
  let t1 := {task with runCount := task.runCount + 1}
  let (t2, s2, r) :=
    match t1.zone with
    | some z => Zone.runTask onInvokeTask onHandleError z t1 s1
    | none => (t1, s1, .error Err.typeErr)
  let s3 := if s2.nested = 1 then drain s2 else s2
  (t2, {s3 with nested := s3.nested - 1}, r)

/-- What running one queued microtask (`task.zone.runTask(task, null, null)`,
zone.ts line 1491) does, abstracted over the task's behaviour: it may push
new microtasks onto the live queue and it may end in a thrown error. Tasks
are identified by numbers; `env` below gives each its behaviour. -/
structure ExecResult where
  spawned : List Nat
  err : Option Nat
deriving DecidableEq

/-- Events observable from the microtask engine: a task ran, an error was
dispatched to the external `onUnhandledError` hook, or `microtaskDrainDone`
was called. -/
inductive MEvent where
  | ran (t : Nat)
  | unhandled (e : Nat)
  | drainDone
deriving DecidableEq

/-- The microtask-engine state: the live `_microTaskQueue`, the
`_isDrainingMicrotaskQueue` flag, and an event log. -/
structure MicroState where
  queue : List Nat
  draining : Bool
  log : List MEvent
deriving DecidableEq

/-- The inner `for` loop of `drainMicroTaskQueue` (zone.ts lines 1488-1495):
iterate over the swapped-out `queue`; each task runs (pushing its spawned
microtasks onto the live queue); a throw from `runTask` is caught and
dispatched to `_api.onUnhandledError`, and the loop continues. -/
def runQueueTasks (env : Nat → ExecResult) : List Nat → MicroState → MicroState
  | [], s => s
  | t :: rest, s =>
    let r := env t
    let s1 := {s with
      queue := s.queue ++ r.spawned
      log := s.log ++ (MEvent.ran t :: (match r.err with
        | some e => [MEvent.unhandled e]
        | none => []))}
    runQueueTasks env rest s1

/-- The `while (_microTaskQueue.length)` loop of `drainMicroTaskQueue`
(zone.ts lines 1485-1496): swap the live queue with a fresh empty list and
run the swapped-out tasks; repeat while the queue is non-empty. `fuel`
bounds the number of outer iterations; `none` means the loop did not
terminate within the given fuel (in JS the loop would simply still be
running). -/
def drainWhileLoop (env : Nat → ExecResult) : Nat → MicroState → Option MicroState
  | fuel, s =>
    if s.queue = [] then some s
    else
      match fuel with
      | 0 => none
      | fuel' + 1 =>
        drainWhileLoop env fuel' (runQueueTasks env s.queue {s with queue := []})

/-- `drainMicroTaskQueue` (zone.ts lines 1478-1500): guarded by the
`draining` flag (a nested call does nothing); sets the flag, runs the while
loop, then calls `_api.microtaskDrainDone()` and clears the flag. -/
def drainMicroTaskQueue (env : Nat → ExecResult) (fuel : Nat)
    (s : MicroState) : Option MicroState :=
  if s.draining then some s
  else
    match drainWhileLoop env fuel {s with draining := true} with
    | none => none
    | some s1 => some {s1 with log := s1.log ++ [MEvent.drainDone], draining := false}

/-- Concatenation of the lists produced for each element, in order. -/
def concatMapL {α β : Type} (f : α → List β) : List α → List β
  | [] => []
  | a :: rest => f a ++ concatMapL f rest

/-- Specification-side trace of one drain round over queue `q`: every task
of `q` runs, in insertion order, and a task whose run throws contributes an
`unhandled` dispatch immediately after its run — it never stops the round. -/
def roundEvents (env : Nat → ExecResult) (q : List Nat) : List MEvent :=
  concatMapL (fun t => MEvent.ran t :: (match (env t).err with
    | some e => [MEvent.unhandled e]
    | none => [])) q

/-- The tasks enqueued during one drain round over `q`, in FIFO order. -/
def roundSpawn (env : Nat → ExecResult) (q : List Nat) : List Nat :=
  concatMapL (fun t => (env t).spawned) q

/-- Specification-side trace of a complete drain starting from queue `q`:
rounds are concatenated, each round processing exactly the tasks enqueued
during the previous one, until a round enqueues nothing. Written from the
spec's description of the two-phase swap; compared against the source-side
`drainMicroTaskQueue` below. -/
def drainSpecTrace (env : Nat → ExecResult) : Nat → List Nat → Option (List MEvent)
  | fuel, q =>
    if q = [] then some []
    else
      match fuel with
      | 0 => none
      | fuel' + 1 =>
        (drainSpecTrace env fuel' (roundSpawn env q)).map
          (fun tr => roundEvents env q ++ tr)

/-- All-zero task counters. -/
def zeroCounts : TaskCounts := fun _ => 0

/-- A convenient initial process state: current zone is the root, no current
task, all counters zero. -/
def initState : ZState :=
  { frame := [Zone.root], currentTask := none, delegates := fun _ => zeroCounts
    nested := 0, nextId := 0, log := [] }

/-- A delegate `scheduleTask` dispatch that performs only the default
scheduling (`task.scheduleFn(task)`) and registers no delegate for
ref-counting. -/
def dschedNoop : TaskHookFn := fun t s => (t, s, .ok ())

/-- A delegate `scheduleTask` dispatch on a chain where some ancestor
registered `onHasTask`: it pushes the owning delegate `d` onto the task's
`zoneDelegates` array (keeping the array identity, as the JS `push` does:
zone.ts line 1233) and then schedules. -/
def dschedReg (d : Nat) : TaskHookFn := fun t s =>
  ({t with zoneDelegates :=
      match t.zoneDelegates with
      | some (tag, ds) => some (tag, ds ++ [d])
      | none => none}, s, .ok ())

/-- A delegate `cancelTask` dispatch that performs only the default
cancellation (`task.cancelFn(task)`). -/
def dcancelNoop : TaskHookFn := fun t s => (t, s, .ok ())

/-- A delegate dispatch that throws the user error `n` without touching
anything (a hook whose body throws immediately). -/
def dhookThrow (n : Nat) : TaskHookFn := fun t s => (t, s, .error (.userErr n))

/-- A task record with the given type, state, source, owner, registered
delegates and data; `runCount = 0` and a cancel function present. -/
def mkTask (ty : TaskType) (st : TaskState) (src : String) (zo : Option Zone)
    (zd : Option (Nat × List Nat)) (dat : Option TaskData) : TaskRec :=
  { type := ty, state := st, source := src, runCount := 0, zone := zo
    zoneDelegates := zd, data := dat, hasCancelFn := true }

theorem transitionTo_error_shape {t : TaskRec} {a b : TaskState}
    {c : Option TaskState} {e : Err} (h : transitionTo t a b c = .error e) :
    e = .transitionFail (transitionMsg t a b c) := by
  unfold transitionTo at h
  split at h
  · simp at h
  · simp at h; exact h.symm

theorem delegateUpdate_error_shape {d : Nat} {ty : TaskType} {count : Int}
    {s : ZState} {e : Err}
    (h : (delegateUpdateTaskCount d ty count s).2 = .error e) :
    e = .tooManyTasks tooManyMsg := by
  unfold delegateUpdateTaskCount at h
  simp only at h
  split at h
  · simp at h; exact h.symm
  · split at h <;> simp at h

theorem updateCountLoop_error_shape {ds : List Nat} {ty : TaskType}
    {count : Int} {s : ZState} {e : Err}
    (h : (updateCountLoop ds ty count s).2 = .error e) :
    e = .tooManyTasks tooManyMsg := by
  induction ds generalizing s with
  | nil => simp [updateCountLoop] at h
  | cons d rest ih =>
    unfold updateCountLoop at h
    rcases hd : delegateUpdateTaskCount d ty count s with ⟨s1, r⟩
    rw [hd] at h
    cases r with
    | ok u =>
      cases u
      exact ih h
    | error e' =>
      simp at h
      have := delegateUpdate_error_shape (e := e') (by rw [hd])
      exact h ▸ this

theorem zoneUpdate_error_shape {t : TaskRec} {count : Int} {s : ZState}
    {e : Err} (h : (zoneUpdateTaskCount t count s).2.2 = .error e) :
    e = .typeErr ∨ e = .tooManyTasks tooManyMsg := by
  unfold zoneUpdateTaskCount at h
  rcases hz : t.zoneDelegates with _ | ⟨tag, ds⟩ <;> rw [hz] at h
  · simp at h; exact Or.inl h.symm
  · simp only at h
    rcases hl : updateCountLoop ds t.type count s with ⟨s1, r⟩
    rw [hl] at h
    cases r with
    | ok u => simp at h
    | error e' =>
      simp at h
      exact Or.inr (h ▸ updateCountLoop_error_shape (by rw [hl]))

theorem zoneInChain_iff (tz z : Zone) :
    zoneInChain tz z = true ↔ tz ∈ z.ancestors := by
  induction z with
  | root =>
    simp only [zoneInChain, Zone.ancestors, List.mem_singleton, decide_eq_true_eq]
    exact ⟨fun h => h.symm, fun h => h.symm⟩
  | child p n props ih =>
    simp only [zoneInChain, Zone.ancestors, List.mem_cons, Bool.or_eq_true,
      decide_eq_true_eq, ih]
    constructor
    · rintro (h | h)
      · exact Or.inl h.symm
      · exact Or.inr h
    · rintro (h | h)
      · exact Or.inl h.symm
      · exact Or.inr h

theorem scheduleCheck_error_iff (z : Zone) (task : TaskRec) :
    (∃ m, scheduleCheck z task = .error (.reschedule m)) ↔
      ∃ tz, task.zone = some tz ∧ tz ≠ z ∧ tz ∈ z.ancestors := by
  unfold scheduleCheck
  rcases hz : task.zone with _ | tz
  · simp
  · simp only
    by_cases h1 : tz ≠ z
    · rw [if_pos h1]
      by_cases h2 : zoneInChain tz z
      · rw [if_pos h2]
        simp only [Except.error.injEq, Err.reschedule.injEq, exists_eq]
        constructor
        · intro _; exact ⟨tz, rfl, h1, (zoneInChain_iff tz z).1 h2⟩
        · intro _; exact ⟨rescheduleMsg z.zname tz.zname, rfl⟩
      · rw [if_neg h2]
        constructor
        · rintro ⟨m, hm⟩; simp at hm
        · rintro ⟨tz', htz', _, hmem⟩
          rw [Option.some.injEq] at htz'
          exact absurd ((zoneInChain_iff tz z).2 (htz'.symm ▸ hmem)) h2
    · rw [if_neg h1]
      push_neg at h1
      constructor
      · rintro ⟨m, hm⟩; simp at hm
      · rintro ⟨tz', htz', hne, _⟩
        rw [Option.some.injEq] at htz'
        exact absurd (htz' ▸ h1) hne

theorem scheduleCheck_error_val {z : Zone} {task : TaskRec} {tz : Zone}
    (h1 : task.zone = some tz) (h2 : tz ≠ z) (h3 : tz ∈ z.ancestors) :
    scheduleCheck z task = .error (.reschedule (rescheduleMsg z.zname tz.zname)) := by
  unfold scheduleCheck
  rw [h1]
  simp only
  rw [if_pos h2, if_pos ((zoneInChain_iff tz z).2 h3)]

theorem scheduleTaskBody_no_reschedule
    (dsched : TaskHookFn) (onHandleError : HandleErrorFn) (z : Zone)
    (task : TaskRec) (s : ZState)
    (hds : ∀ t u, (dsched t u).2.2 = .ok () ∨
           ∃ n, (dsched t u).2.2 = .error (.userErr n))
    (msg : String) :
    (scheduleTaskBody dsched onHandleError z task s).2.2 ≠
      .error (.reschedule msg) := by
  unfold scheduleTaskBody
  rcases h1 : transitionTo task .scheduling .notScheduled none with e1 | t1
  · have := transitionTo_error_shape h1
    subst this; simp
  · simp only
    rcases h2 : dsched {t1 with zoneDelegates := some (s.nextId, []), zone := some z}
        {s with nextId := s.nextId + 1} with ⟨t3, s1, r⟩
    cases r with
    | error err =>
      simp only
      rcases h3 : transitionTo t3 .unknown .scheduling (some .notScheduled) with e2 | t4
      · have := transitionTo_error_shape h3
        subst this; simp
      · simp only
        rcases hds {t1 with zoneDelegates := some (s.nextId, []), zone := some z}
            {s with nextId := s.nextId + 1} with hok | ⟨n, hu⟩
        · rw [h2] at hok; simp at hok
        · rw [h2] at hu; simp at hu
          subst hu; simp
    | ok u =>
      cases u
      simp only
      rcases h4 : (if (match t3.zoneDelegates with
          | some (tag', _) => decide (tag' = s.nextId)
          | none => false) = true
        then zoneUpdateTaskCount t3 1 s1 else (t3, s1, Except.ok ())) with ⟨t4, s2, r2⟩
      cases r2 with
      | error e =>
        simp only
        have he : (zoneUpdateTaskCount t3 1 s1).2.2 = .error e := by
          split at h4
          · rw [h4]
          · simp at h4
        rcases zoneUpdate_error_shape he with h | h <;> (subst h; simp)
      | ok u2 =>
        cases u2
        simp only
        split
        · rcases h5 : transitionTo t4 .scheduled .scheduling none with e3 | t5
          · have := transitionTo_error_shape h5
            subst this; simp
          · simp
        · simp

/-- C8: for every zone Z and key K, `getZoneWith(K)` returns the nearest
zone on the chain from Z to the root whose own property map contains K
(`null` when none does); `get(K)` returns the first non-absent
`properties[K]` walking from self to root (`undefined` when no ancestor has
the key); and `Z.get(K)` equals `Z.getZoneWith(K)?.properties[K]`. -/
theorem zone_get_getZoneWith_agree (z : Zone) (key : String) :
    z.getZoneWith key = z.ancestors.find? (fun a => a.hasOwnProp key) ∧
    z.get key = z.getSpecWalk key ∧
    z.get key = (match z.getZoneWith key with
                 | some zone => zone.propAt key
                 | none => none) :=
  ⟨Zone.getZoneWith_eq_find z key, Zone.get_eq_specWalk z key, rfl⟩

/-- C3: `Zone.scheduleTask` throws an error whose message contains
"can not reschedule" exactly when the receiver is a proper descendant of
`task.zone` (i.e. `task.zone` is set, differs from the receiver, and is
found walking up the parent chain from the receiver); in every other case
the check passes and scheduling proceeds — in particular no reschedule
error can arise (the delegate hook, like any user code, throws only user
errors, which the hypothesis `hds` states). -/
theorem scheduleTask_reschedule_iff
    (dsched : TaskHookFn) (onHandleError : HandleErrorFn)
    (z : Zone) (task : TaskRec) (s : ZState)
    (hds : ∀ t u, (dsched t u).2.2 = .ok () ∨
           ∃ n, (dsched t u).2.2 = .error (.userErr n)) :
    ((∃ msg, (Zone.scheduleTask dsched onHandleError z task s).2.2 =
        .error (.reschedule msg)) ↔
      ∃ tz, task.zone = some tz ∧ tz ≠ z ∧ tz ∈ z.ancestors) ∧
    (∀ tz, task.zone = some tz → tz ≠ z → tz ∈ z.ancestors →
      (Zone.scheduleTask dsched onHandleError z task s).2.2 =
        .error (.reschedule (rescheduleMsg z.zname tz.zname)) ∧
      ∃ post, (rescheduleMsg z.zname tz.zname).data =
        ("can not reschedule").data ++ post) := by
  constructor
  · constructor
    · rintro ⟨msg, hmsg⟩
      unfold Zone.scheduleTask at hmsg
      rcases hc : scheduleCheck z task with e | u
      · rw [hc] at hmsg
        simp at hmsg
        exact (scheduleCheck_error_iff z task).1 ⟨msg, by rw [hc, hmsg]⟩
      · cases u
        rw [hc] at hmsg
        simp only at hmsg
        exact absurd hmsg
          (scheduleTaskBody_no_reschedule dsched onHandleError z task s hds msg)
    · rintro ⟨tz, h1, h2, h3⟩
      refine ⟨rescheduleMsg z.zname tz.zname, ?_⟩
      unfold Zone.scheduleTask
      rw [scheduleCheck_error_val h1 h2 h3]
  · intro tz h1 h2 h3
    constructor
    · unfold Zone.scheduleTask
      rw [scheduleCheck_error_val h1 h2 h3]
    · refine ⟨(" task to " ++ z.zname ++
        " which is descendants of the original zone " ++ tz.zname).data, ?_⟩
      unfold rescheduleMsg
      have hsplit : ("can not reschedule task to " : String) =
          "can not reschedule" ++ " task to " := by decide
      rw [hsplit]
      simp [String.data_append, List.append_assoc]

/-- Witness for C3 at scenario S3 of the spec: zone B forked from A = root,
scheduling a task owned by A from B throws the reschedule error. -/
theorem scheduleTask_reschedule_iff_witness :
    (Zone.scheduleTask dschedNoop (logHandleError true) (Zone.child Zone.root "B" [])
      (mkTask .macroTask .notScheduled "t" (some Zone.root) none none) initState).2.2 =
      .error (.reschedule (rescheduleMsg (Zone.child Zone.root "B" []).zname
        Zone.root.zname)) := by
  have h := scheduleTask_reschedule_iff dschedNoop (logHandleError true)
    (Zone.child Zone.root "B" [])
    (mkTask .macroTask .notScheduled "t" (some Zone.root) none none) initState
    (fun t u => Or.inl rfl)
  exact (h.2 Zone.root rfl (by decide) (by decide)).1

/-- C4 (amended): a call to `_updateTaskCount(type, count)` that does not
underflow (`prev + count ≥ 0`) fires the `hasTask` notification on its
owning zone iff the counter crosses the 0↔1 boundary (`prev = 0` or
`next = 0`), carrying the full snapshot read from the updated counters with
`change = type`; otherwise the log is untouched; and the notification fires
synchronously inside the counter update — for a schedule on a chain whose
registered delegate `d` had counter 0, the `hasTask` entry is already in
the log when `Zone.scheduleTask` returns. (The unamended claim fails on an
underflowing call, which throws without firing although `prev = 0`.) -/
theorem updateTaskCount_hasTask_boundary
    (d : Nat) (ty : TaskType) (count : Int) (s : ZState)
    (hnn : 0 ≤ s.delegates d ty + count) :
    ((delegateUpdateTaskCount d ty count s).1.log =
        s.log ++ [ZEvent.hasTask d
          (hasTaskSnap (setCount (s.delegates d) ty (s.delegates d ty + count)) ty)] ↔
      (s.delegates d ty = 0 ∨ s.delegates d ty + count = 0)) ∧
    (¬(s.delegates d ty = 0 ∨ s.delegates d ty + count = 0) →
      (delegateUpdateTaskCount d ty count s).1.log = s.log) ∧
    (∀ ret z task,
      task.state = TaskState.notScheduled → task.zone = none →
      s.delegates d task.type = 0 →
      ((Zone.scheduleTask (dschedReg d) (logHandleError ret) z task s).2.1).log =
        s.log ++ [ZEvent.hasTask d
          (hasTaskSnap (setCount (s.delegates d) task.type 1) task.type)]) := by
  have hlt : ¬ (s.delegates d ty + count < 0) := not_lt.mpr hnn
  refine ⟨?_, ?_, ?_⟩
  · unfold delegateUpdateTaskCount
    simp only
    rw [if_neg hlt]
    by_cases hb : s.delegates d ty = 0 ∨ s.delegates d ty + count = 0
    · rw [if_pos hb]
      simpa using hb
    · rw [if_neg hb]
      simp only
      constructor
      · intro h; simp at h
      · intro h; exact absurd h hb
  · intro hb
    unfold delegateUpdateTaskCount
    simp only
    rw [if_neg hlt, if_neg hb]
  · intro ret z task h1 h2 h3
    simp only [Zone.scheduleTask, scheduleCheck, h2]
    simp only [scheduleTaskBody, transitionTo, h1, true_or, if_true, reduceCtorEq,
      if_false, dschedReg, zoneUpdateTaskCount, updateCountLoop,
      delegateUpdateTaskCount, setCount]
    simp [h3, hasTaskSnap, setCount, transitionTo]

/-- Witness for C4: incrementing a zero macroTask counter fires one
`hasTask` notification with `macroTask` reported busy. -/
theorem updateTaskCount_hasTask_boundary_witness :
    (0 : Int) ≤ initState.delegates 0 TaskType.macroTask + 1 ∧
    (delegateUpdateTaskCount 0 TaskType.macroTask 1 initState).1.log =
      initState.log ++ [ZEvent.hasTask 0
        (hasTaskSnap (setCount (initState.delegates 0) TaskType.macroTask
          (initState.delegates 0 TaskType.macroTask + 1)) TaskType.macroTask)] := by
  refine ⟨by decide, ?_⟩
  exact (updateTaskCount_hasTask_boundary 0 TaskType.macroTask 1 initState
    (by decide)).1.mpr (Or.inl rfl)

/-- Counterexample for C4 as stated: a decrement from `prev = 0` has
`prev = 0` — a 0↔1 boundary crossing in the claim's own terms — yet fires
no `hasTask` notification: the call throws instead. -/
theorem updateTaskCount_boundary_break :
    initState.delegates 0 TaskType.macroTask = 0 ∧
    (delegateUpdateTaskCount 0 TaskType.macroTask (-1) initState).1.log = [] ∧
    (delegateUpdateTaskCount 0 TaskType.macroTask (-1) initState).2 =
      .error (.tooManyTasks tooManyMsg) :=
  ⟨rfl, rfl, rfl⟩

/-- C5 (amended): `_updateTaskCount` throws "More tasks executed then were
scheduled." exactly when the updated count would be below zero, and a
successful call keeps all counters of the delegate non-negative; however
the updated value is written into the counter before the negative check, so
after a throwing decrement the stored counter is negative — the unamended
"≥ 0 at every observable moment" fails at that moment. -/
theorem updateTaskCount_negative_guard
    (d : Nat) (ty : TaskType) (count : Int) (s : ZState) :
    ((delegateUpdateTaskCount d ty count s).2 =
        .error (.tooManyTasks tooManyMsg) ↔ s.delegates d ty + count < 0) ∧
    ((delegateUpdateTaskCount d ty count s).2 = .ok () ↔
        0 ≤ s.delegates d ty + count) ∧
    ((delegateUpdateTaskCount d ty count s).1.delegates d ty =
        s.delegates d ty + count) ∧
    (0 ≤ s.delegates d ty + count →
      ∀ ty', 0 ≤ s.delegates d ty' →
        0 ≤ (delegateUpdateTaskCount d ty count s).1.delegates d ty') := by
  unfold delegateUpdateTaskCount
  simp only
  by_cases hlt : s.delegates d ty + count < 0
  · rw [if_pos hlt]
    refine ⟨by simpa using hlt, ?_, ?_, ?_⟩
    · simp only [reduceCtorEq, false_iff]
      exact not_le.mpr hlt
    · simp [setCount]
    · intro h; exact absurd h (not_le.mpr hlt)
  · rw [if_neg hlt]
    by_cases hb : s.delegates d ty = 0 ∨ s.delegates d ty + count = 0
    · rw [if_pos hb]
      refine ⟨by simp [hlt], by simpa using not_lt.mp hlt, by simp [setCount], ?_⟩
      intro hnn ty' hty'
      by_cases he : ty' = ty
      · subst he
        simpa [setCount] using hnn
      · simpa [setCount, he] using hty'
    · rw [if_neg hb]
      refine ⟨by simp [hlt], by simpa using not_lt.mp hlt, by simp [setCount], ?_⟩
      intro hnn ty' hty'
      by_cases he : ty' = ty
      · subst he
        simpa [setCount] using hnn
      · simpa [setCount, he] using hty'

/-- Witness for C5's amended theorem: a successful increment from zero. -/
theorem updateTaskCount_negative_guard_witness :
    (delegateUpdateTaskCount 0 TaskType.macroTask 1 initState).2 = .ok () ∧
    (delegateUpdateTaskCount 0 TaskType.macroTask 1 initState).1.delegates 0
      TaskType.macroTask = initState.delegates 0 TaskType.macroTask + 1 :=
  ⟨(updateTaskCount_negative_guard 0 TaskType.macroTask 1 initState).2.1.mpr
      (by decide),
   (updateTaskCount_negative_guard 0 TaskType.macroTask 1 initState).2.2.1⟩

/-- Counterexample for C5 as stated: decrementing a zero counter throws as
claimed, but the counter is written first and is observably -1 after the
call — it is not ≥ 0 at every observable moment. -/
theorem counter_goes_negative_counterexample :
    (delegateUpdateTaskCount 0 TaskType.macroTask (-1) initState).1.delegates 0
      TaskType.macroTask = -1 ∧
    (delegateUpdateTaskCount 0 TaskType.macroTask (-1) initState).2 =
      .error (.tooManyTasks tooManyMsg) :=
  ⟨rfl, rfl⟩

/-- C6: `runGuarded` invokes the callback through the `onInvoke` chain and
catches a thrown error; the error is routed through the `handleError` chain
(here the canonical logging chain returning `ret`), whose boolean decides
propagation — `true` rethrows the error from `runGuarded`, `false` swallows
it and `runGuarded` returns `undefined`; a normal return is passed through;
and in every case the zone frame pushed at entry is popped. -/
theorem runGuarded_handleError_semantics
    (invoke : InvokeFn) (ret : Bool) (z : Zone) (s : ZState)
    (hfr : ∀ u, ((invoke u).1).frame = u.frame) :
    (∀ v, (invoke {s with frame := z :: s.frame}).2 = .ok v →
       (Zone.runGuarded invoke (logHandleError ret) z s).2 = .ok v) ∧
    (∀ e, (invoke {s with frame := z :: s.frame}).2 = .error e →
       ((Zone.runGuarded invoke (logHandleError ret) z s).1).log =
         ((invoke {s with frame := z :: s.frame}).1).log ++ [ZEvent.handledError e] ∧
       (Zone.runGuarded invoke (logHandleError ret) z s).2 =
         (if ret then .error e else .ok none)) ∧
    ((Zone.runGuarded invoke (logHandleError ret) z s).1).frame = s.frame := by
  rcases hi : invoke {s with frame := z :: s.frame} with ⟨s2, r⟩
  have hfr2 : s2.frame = z :: s.frame := by
    have h0 := hfr {s with frame := z :: s.frame}
    rw [hi] at h0
    exact h0
  refine ⟨?_, ?_, ?_⟩
  · intro v hv
    simp only at hv
    subst hv
    simp only [Zone.runGuarded]
    rw [hi]
    simp [runGuardedCatch]
  · intro e he
    simp only at he
    subst he
    simp only [Zone.runGuarded]
    rw [hi]
    simp only [runGuardedCatch, logHandleError]
    cases ret <;> simp
  · simp only [Zone.runGuarded]
    rw [hi]
    cases r with
    | ok v =>
      simp only [runGuardedCatch]
      simp [hfr2]
    | error e =>
      simp only [runGuardedCatch, logHandleError]
      cases ret <;> simp [hfr2]

/-- Witness for C6 at spec scenario S5: a callback that throws user error 7
in a zone whose `onHandleError` returns false — `runGuarded` returns
`undefined` without throwing, logs the handleError dispatch, and restores
the frame. -/
theorem runGuarded_handleError_semantics_witness :
    (Zone.runGuarded (fun u => (u, .error (.userErr 7))) (logHandleError false)
      Zone.root initState).2 = .ok none ∧
    ((Zone.runGuarded (fun u => (u, .error (.userErr 7))) (logHandleError false)
      Zone.root initState).1).frame = initState.frame := by
  have h := runGuarded_handleError_semantics (fun u => (u, .error (.userErr 7)))
    false Zone.root initState (fun u => rfl)
  exact ⟨((h.2.1 (.userErr 7)) rfl).2, h.2.2⟩

/-- States agreeing on everything the counter machinery never touches: the
zone-frame stack, the current task, the id supply and the nesting depth. -/
def preservesCore (s s' : ZState) : Prop :=
  s'.frame = s.frame ∧ s'.currentTask = s.currentTask ∧
  s'.nextId = s.nextId ∧ s'.nested = s.nested

theorem preservesCore_trans {a b c : ZState}
    (h1 : preservesCore a b) (h2 : preservesCore b c) : preservesCore a c :=
  ⟨h2.1.trans h1.1, h2.2.1.trans h1.2.1, h2.2.2.1.trans h1.2.2.1,
   h2.2.2.2.trans h1.2.2.2⟩

theorem delegateUpdate_preserves (d : Nat) (ty : TaskType) (count : Int)
    (s : ZState) : preservesCore s (delegateUpdateTaskCount d ty count s).1 := by
  unfold delegateUpdateTaskCount preservesCore
  simp only
  split
  · simp
  · split <;> simp

theorem updateCountLoop_preserves (ds : List Nat) (ty : TaskType)
    (count : Int) (s : ZState) :
    preservesCore s (updateCountLoop ds ty count s).1 := by
  induction ds generalizing s with
  | nil => exact ⟨rfl, rfl, rfl, rfl⟩
  | cons d rest ih =>
    have hp := delegateUpdate_preserves d ty count s
    unfold updateCountLoop
    rcases hd : delegateUpdateTaskCount d ty count s with ⟨s1, r⟩
    rw [hd] at hp
    cases r with
    | ok u =>
      cases u
      exact preservesCore_trans hp (ih s1)
    | error e => exact hp

theorem zoneUpdate_preserves (t : TaskRec) (count : Int) (s : ZState) :
    preservesCore s (zoneUpdateTaskCount t count s).2.1 := by
  unfold zoneUpdateTaskCount
  rcases t.zoneDelegates with _ | ⟨tag, ds⟩
  · exact ⟨rfl, rfl, rfl, rfl⟩
  · simp only
    rcases hl : updateCountLoop ds t.type count s with ⟨s1, r⟩
    have hp := updateCountLoop_preserves ds t.type count s
    rw [hl] at hp
    exact hp

theorem runTaskUnwind_preserves (g : Bool) (t : TaskRec) (s : ZState) :
    preservesCore s (runTaskUnwind g t s).2.1 := by
  unfold runTaskUnwind
  have hp := zoneUpdate_preserves {t with runCount := 0} (-1) s
  rcases hz : zoneUpdateTaskCount {t with runCount := 0} (-1) s with ⟨t2, s1, r⟩
  rw [hz] at hp
  replace hp : preservesCore s s1 := hp
  by_cases hA : t.state ≠ TaskState.notScheduled ∧ t.state ≠ TaskState.unknown
  · rw [if_pos hA]
    by_cases hB : t.type = TaskType.eventTask ∨ t.isPeriodicData = true
    · rw [if_pos hB]
      cases g
      · exact ⟨rfl, rfl, rfl, rfl⟩
      · rcases transitionTo t .scheduled .running none with e1 | t'
        · exact ⟨rfl, rfl, rfl, rfl⟩
        · exact ⟨rfl, rfl, rfl, rfl⟩
    · rw [if_neg hB]
      cases r with
      | error e1 => exact hp
      | ok u =>
        cases u
        cases g
        · exact hp
        · show preservesCore s
            ((match transitionTo t2 TaskState.notScheduled TaskState.running
                (some TaskState.notScheduled) with
              | Except.ok t3 => (t3, s1, Except.ok ())
              | Except.error e1 => (t2, s1, Except.error e1)).2.1)
          rcases transitionTo t2 .notScheduled .running (some .notScheduled) with e1 | t3
          · exact hp
          · exact hp
  · rw [if_neg hA]
    exact ⟨rfl, rfl, rfl, rfl⟩

theorem runTaskUnwind_error_not_user {g : Bool} {t : TaskRec} {s : ZState}
    {e : Err} (h : (runTaskUnwind g t s).2.2 = .error e) :
    e.isUserErr = false := by
  unfold runTaskUnwind at h
  rcases hz : zoneUpdateTaskCount {t with runCount := 0} (-1) s with ⟨t2, s1, r⟩
  rw [hz] at h
  by_cases hA : t.state ≠ TaskState.notScheduled ∧ t.state ≠ TaskState.unknown
  · rw [if_pos hA] at h
    by_cases hB : t.type = TaskType.eventTask ∨ t.isPeriodicData = true
    · rw [if_pos hB] at h
      cases g
      · simp at h
      · rcases ht : transitionTo t .scheduled .running none with e1 | t' <;> rw [ht] at h
        · simp at h
          rw [← h, transitionTo_error_shape ht]
          rfl
        · simp at h
    · rw [if_neg hB] at h
      cases r with
      | error e1 =>
        simp at h
        have h2 := zoneUpdate_error_shape (e := e1) (by rw [hz])
        rcases h2 with h1 | h1 <;> (rw [← h, h1]; rfl)
      | ok u =>
        cases u
        cases g
        · simp at h
        · replace h : (match transitionTo t2 TaskState.notScheduled
              TaskState.running (some TaskState.notScheduled) with
              | Except.ok t3 => (t3, s1, Except.ok ())
              | Except.error e1 => (t2, s1, Except.error e1)).2.2 =
              Except.error e := h
          rcases ht : transitionTo t2 .notScheduled .running (some .notScheduled)
              with e1 | t3 <;> rw [ht] at h
          · simp at h
            rw [← h, transitionTo_error_shape ht]
            rfl
          · simp at h
  · rw [if_neg hA] at h
    simp at h

theorem runTaskFinally_cases (g : Bool) (prev : Option TaskRec) (t : TaskRec)
    (u : ZState) (r : Except Err JSVal) :
    ((runTaskFinally g prev t u r).2.2 = r ∧
      (runTaskFinally g prev t u r).2.1.frame = u.frame.tail) ∨
    (∃ e, (runTaskFinally g prev t u r).2.2 = .error e ∧ e.isUserErr = false ∧
      (runTaskFinally g prev t u r).2.1.frame = u.frame) := by
  unfold runTaskFinally
  rcases hu : runTaskUnwind g t u with ⟨t', s', ru⟩
  have hp := runTaskUnwind_preserves g t u
  rw [hu] at hp
  cases ru with
  | ok v =>
    cases v
    replace hp : preservesCore u s' := hp
    left
    refine ⟨rfl, ?_⟩
    show s'.frame.tail = u.frame.tail
    rw [hp.1]
  | error e =>
    right
    replace hp : preservesCore u s' := hp
    exact ⟨e, rfl, runTaskUnwind_error_not_user (by rw [hu]), hp.1⟩

theorem runTaskCatch_frame (hErr : HandleErrorFn)
    (p : TaskRec × ZState × Except Err JSVal)
    (hh : ∀ e u, ((hErr e u).1).frame = u.frame) :
    ((runTaskCatch hErr p).2.1).frame = (p.2.1).frame := by
  rcases p with ⟨t4, s2, r0⟩
  cases r0 with
  | ok v => rfl
  | error e0 =>
    show ((match hErr e0 s2 with
           | (s2', b) => if b = true then (t4, s2', Except.error e0)
             else (t4, s2', Except.ok none) :
           TaskRec × ZState × Except Err JSVal).2.1).frame = s2.frame
    rcases hhe : hErr e0 s2 with ⟨s2', b⟩
    have h0 := hh e0 s2
    rw [hhe] at h0
    replace h0 : s2'.frame = s2.frame := h0
    cases b
    · exact h0
    · exact h0

theorem runGuardedCatch_frame (hErr : HandleErrorFn)
    (p : ZState × Except Err JSVal)
    (hh : ∀ e u, ((hErr e u).1).frame = u.frame) :
    ((runGuardedCatch hErr p).1).frame = (p.1).frame := by
  rcases p with ⟨s2, r0⟩
  cases r0 with
  | ok v => rfl
  | error e0 =>
    show ((match hErr e0 s2 with
           | (s2', b) => if b = true then (s2', Except.error e0)
             else (s2', Except.ok none) :
           ZState × Except Err JSVal).1).frame = s2.frame
    rcases hhe : hErr e0 s2 with ⟨s2', b⟩
    have h0 := hh e0 s2
    rw [hhe] at h0
    replace h0 : s2'.frame = s2.frame := h0
    cases b
    · exact h0
    · exact h0

theorem runTaskRest_frame (oit : InvokeTaskFn) (hErr : HandleErrorFn)
    (g : Bool) (prev : Option TaskRec) (t3 : TaskRec) (s1 : ZState)
    (hfr : ∀ t u, ((oit t u).2.1).frame = u.frame)
    (hh : ∀ e u, ((hErr e u).1).frame = u.frame) :
    ((runTaskRest oit hErr g prev t3 s1).2.1).frame = s1.frame.tail ∨
    ∃ e, (runTaskRest oit hErr g prev t3 s1).2.2 = .error e ∧
      e.isUserErr = false := by
  unfold runTaskRest
  have hcf := runTaskCatch_frame hErr (oit t3 s1) hh
  rcases hq : runTaskCatch hErr (oit t3 s1) with ⟨t4, s3, r1⟩
  rw [hq] at hcf
  replace hcf : s3.frame = ((oit t3 s1).2.1).frame := hcf
  have hf3 : s3.frame = s1.frame := hcf.trans (hfr t3 s1)
  rcases runTaskFinally_cases g prev t4 s3 r1 with ⟨h1, h2⟩ | ⟨e, h1, h2, h3⟩
  · left
    show (runTaskFinally g prev t4 s3 r1).2.1.frame = s1.frame.tail
    rw [h2, hf3]
  · right
    exact ⟨e, h1, h2⟩

/-- C2 (amended): across every call to `run` and `runGuarded` the
zone-frame stack is identical on exit to what it was on entry, on the
normal and on the throwing path alike (the dispatched hooks being
frame-balanced, as every zone operation is); for `runTask` the frame
pushed at entry is popped on every exit path except when the unwind
handler itself throws: a task-state-transition or task-count error raised
inside the `finally` block aborts it before the pop, the call then exits
with that zone-internal (non-user) error and the frame stays pushed. The
unamended claim fails on that path (see the counterexample). -/
theorem zone_frame_stack_invariant :
    (∀ (invoke : InvokeFn) (z : Zone) (s : ZState),
      (∀ u, ((invoke u).1).frame = u.frame) →
      ((Zone.run invoke z s).1).frame = s.frame) ∧
    (∀ (invoke : InvokeFn) (onHandleError : HandleErrorFn) (z : Zone) (s : ZState),
      (∀ u, ((invoke u).1).frame = u.frame) →
      (∀ e u, ((onHandleError e u).1).frame = u.frame) →
      ((Zone.runGuarded invoke onHandleError z s).1).frame = s.frame) ∧
    (∀ (onInvokeTask : InvokeTaskFn) (onHandleError : HandleErrorFn) (z : Zone)
       (task : TaskRec) (s : ZState),
      (∀ t u, ((onInvokeTask t u).2.1).frame = u.frame) →
      (∀ e u, ((onHandleError e u).1).frame = u.frame) →
      (((Zone.runTask onInvokeTask onHandleError z task s).2.1).frame = s.frame ∨
       ∃ e, (Zone.runTask onInvokeTask onHandleError z task s).2.2 = .error e ∧
         e.isUserErr = false)) := by
  refine ⟨?_, ?_, ?_⟩
  · intro invoke z s hfr
    simp only [Zone.run]
    rcases hi : invoke {s with frame := z :: s.frame} with ⟨s2, r⟩
    have h2 := hfr {s with frame := z :: s.frame}
    rw [hi] at h2
    replace h2 : s2.frame = z :: s.frame := h2
    show s2.frame.tail = s.frame
    rw [h2]
    rfl
  · intro invoke onHandleError z s hfr hh
    simp only [Zone.runGuarded]
    have hcf := runGuardedCatch_frame onHandleError
      (invoke {s with frame := z :: s.frame}) hh
    rcases hq : runGuardedCatch onHandleError
        (invoke {s with frame := z :: s.frame}) with ⟨s3, r1⟩
    rw [hq] at hcf
    replace hcf : s3.frame = ((invoke {s with frame := z :: s.frame}).1).frame :=
      hcf
    have h2 := hfr {s with frame := z :: s.frame}
    show s3.frame.tail = s.frame
    rw [hcf, h2]
    rfl
  · intro onInvokeTask onHandleError z task s hfr hh
    by_cases h1 : task.zone ≠ some z
    · left
      simp only [Zone.runTask]
      rw [if_pos h1]
    · simp only [Zone.runTask]
      rw [if_neg h1]
      by_cases h2 : task.state = TaskState.notScheduled ∧
          task.type = TaskType.eventTask
      · left
        rw [if_pos h2]
      · rw [if_neg h2]
        split
      -- the reEntryGuard transition threw: no frame was pushed yet
        · left
          rfl
        · rename_i t1 hT
          exact runTaskRest_frame onInvokeTask onHandleError _ _ _ _ hfr hh

/-- Witness for C2 at benign instantiations: a pure callback under `run`, a
throwing callback under `runGuarded` with a rethrowing `handleError`, and a
well-behaved event-task run. -/
theorem zone_frame_stack_invariant_witness :
    ((Zone.run (fun u => (u, .ok none)) Zone.root initState).1).frame =
      initState.frame ∧
    ((Zone.runGuarded (fun u => (u, .error (.userErr 3))) (logHandleError true)
        Zone.root initState).1).frame = initState.frame ∧
    (((Zone.runTask (fun t u => (t, u, .ok none)) (logHandleError true) Zone.root
        (mkTask .eventTask .scheduled "w" (some Zone.root) (some (0, [])) none)
        initState).2.1).frame = initState.frame ∨
     ∃ e, (Zone.runTask (fun t u => (t, u, .ok none)) (logHandleError true) Zone.root
        (mkTask .eventTask .scheduled "w" (some Zone.root) (some (0, [])) none)
        initState).2.2 = .error e ∧ e.isUserErr = false) := by
  refine ⟨?_, ?_, ?_⟩
  · exact zone_frame_stack_invariant.1 _ Zone.root initState (fun u => rfl)
  · exact zone_frame_stack_invariant.2.1 _ _ Zone.root initState
      (fun u => rfl) (fun e u => rfl)
  · exact zone_frame_stack_invariant.2.2 _ _ Zone.root _ initState
      (fun t u => rfl) (fun e u => rfl)

/-- A realistic frame-corrupting callback for an event task: inside its own
run it cancels itself (legal, `running` is an allowed source state for
`canceling`) and immediately reschedules itself on the same zone — both
through the public API — leaving the task in state `scheduled` when the
`finally` of `runTask` executes. -/
def selfRescheduleBody : InvokeTaskFn := fun t u =>
  match Zone.cancelTask dcancelNoop (logHandleError true) Zone.root t u with
  | (t1, u1, .ok ()) =>
    (match Zone.scheduleTask dschedNoop (logHandleError true) Zone.root t1 u1 with
     | (t2, u2, .ok ()) => (t2, u2, .ok none)
     | (t2, u2, .error e) => (t2, u2, .error e))
  | (t1, u1, .error e) => (t1, u1, .error e)

/-- Counterexample for C2 as stated: running an event task whose callback
cancels and reschedules the task leaves the unwind handler facing state
`scheduled`; its `running → scheduled` transition throws inside the
`finally`, the statements after it never run, and `runTask` exits with the
transition error while the frame pushed at entry is still on the stack —
the zone-frame stack is not identical on exit to what it was on entry. -/
theorem runTask_frame_not_restored :
    ((Zone.runTask selfRescheduleBody (logHandleError true) Zone.root
        (mkTask .eventTask .scheduled "e" (some Zone.root) (some (0, [])) none)
        initState).2.1).frame = [Zone.root, Zone.root] ∧
    initState.frame = [Zone.root] ∧
    (∃ m, (Zone.runTask selfRescheduleBody (logHandleError true) Zone.root
        (mkTask .eventTask .scheduled "e" (some Zone.root) (some (0, [])) none)
        initState).2.2 = .error (.transitionFail m)) :=
  ⟨rfl, rfl, ⟨_, rfl⟩⟩

theorem delegateUpdate_effect (d : Nat) (ty : TaskType) (count : Int)
    (s : ZState) (hnn : 0 ≤ s.delegates d ty + count) :
    (delegateUpdateTaskCount d ty count s).2 = .ok () ∧
    (∀ d' ty', (delegateUpdateTaskCount d ty count s).1.delegates d' ty' =
      if d' = d ∧ ty' = ty then s.delegates d ty + count
      else s.delegates d' ty') := by
  unfold delegateUpdateTaskCount
  simp only
  rw [if_neg (not_lt.mpr hnn)]
  have heff : ∀ d' ty',
      (fun i => if i = d then setCount (s.delegates d) ty
        (s.delegates d ty + count) else s.delegates i) d' ty' =
      if d' = d ∧ ty' = ty then s.delegates d ty + count
      else s.delegates d' ty' := by
    intro d' ty'
    by_cases h1 : d' = d
    · subst h1
      by_cases h2 : ty' = ty
      · subst h2; simp [setCount]
      · simp [setCount, h2]
    · simp [h1]
  by_cases hb : s.delegates d ty = 0 ∨ s.delegates d ty + count = 0
  · rw [if_pos hb]
    exact ⟨rfl, heff⟩
  · rw [if_neg hb]
    exact ⟨rfl, heff⟩

theorem updateCountLoop_dec (ds : List Nat) (ty : TaskType) (s : ZState)
    (hnd : ds.Nodup) (hge : ∀ d ∈ ds, 1 ≤ s.delegates d ty) :
    (updateCountLoop ds ty (-1) s).2 = .ok () ∧
    (∀ d ty', (updateCountLoop ds ty (-1) s).1.delegates d ty' =
      if d ∈ ds ∧ ty' = ty then s.delegates d ty' - 1
      else s.delegates d ty') := by
  induction ds generalizing s with
  | nil =>
    refine ⟨rfl, ?_⟩
    intro d ty'
    simp [updateCountLoop]
  | cons d0 rest ih =>
    have hge0 : 1 ≤ s.delegates d0 ty := hge d0 (by simp)
    have hnn : 0 ≤ s.delegates d0 ty + (-1) := by omega
    have heff := delegateUpdate_effect d0 ty (-1) s hnn
    unfold updateCountLoop
    rcases hd : delegateUpdateTaskCount d0 ty (-1) s with ⟨s1, r⟩
    rw [hd] at heff
    replace heff : r = .ok () ∧ ∀ d' ty', s1.delegates d' ty' =
        if d' = d0 ∧ ty' = ty then s.delegates d0 ty + (-1)
        else s.delegates d' ty' := heff
    rcases heff with ⟨hr, hs1⟩
    subst hr
    have hnd' : rest.Nodup := (List.nodup_cons.mp hnd).2
    have hd0 : d0 ∉ rest := (List.nodup_cons.mp hnd).1
    have hge' : ∀ d ∈ rest, 1 ≤ s1.delegates d ty := by
      intro d hdm
      rw [hs1 d ty]
      have hne : ¬(d = d0 ∧ ty = ty) := by
        intro ⟨h1, _⟩
        exact hd0 (h1 ▸ hdm)
      rw [if_neg hne]
      exact hge d (by simp [hdm])
    obtain ⟨hok, hloop⟩ := ih s1 hnd' hge'
    refine ⟨hok, ?_⟩
    intro d ty'
    rw [hloop d ty', hs1 d ty']
    by_cases h1 : d ∈ rest
    · by_cases h2 : ty' = ty
      · subst h2
        have hne : ¬(d = d0 ∧ ty' = ty') := by
          intro ⟨ha, _⟩
          exact hd0 (ha ▸ h1)
        rw [if_pos ⟨h1, rfl⟩, if_neg hne, if_pos ⟨by simp [h1], rfl⟩]
      · simp [h1, h2]
    · by_cases h3 : d = d0
      · subst h3
        by_cases h2 : ty' = ty
        · subst h2
          rw [if_neg (by simp [h1]), if_pos ⟨rfl, rfl⟩,
            if_pos ⟨by simp, rfl⟩]
          omega
        · simp [h1, h2]
      · have hnm : d ∉ d0 :: rest := by simp [h1, h3]
        simp [h1, h3, hnm]

theorem zoneUpdate_dec (t : TaskRec) (s : ZState) (tag : Nat) (ds : List Nat)
    (hzd : t.zoneDelegates = some (tag, ds)) (hnd : ds.Nodup)
    (hge : ∀ d ∈ ds, 1 ≤ s.delegates d t.type) :
    (zoneUpdateTaskCount t (-1) s).1 = {t with zoneDelegates := none} ∧
    (zoneUpdateTaskCount t (-1) s).2.2 = .ok () ∧
    (∀ d ty', (zoneUpdateTaskCount t (-1) s).2.1.delegates d ty' =
      if d ∈ ds ∧ ty' = t.type then s.delegates d ty' - 1
      else s.delegates d ty') := by
  obtain ⟨hok, hloop⟩ := updateCountLoop_dec ds t.type s hnd hge
  unfold zoneUpdateTaskCount
  rw [hzd]
  simp only
  rcases hl : updateCountLoop ds t.type (-1) s with ⟨s1, r⟩
  rw [hl] at hok hloop
  replace hok : r = .ok () := hok
  subst hok
  exact ⟨by simp, rfl, hloop⟩

theorem zoneUpdate_inc_one (t : TaskRec) (s : ZState) (tag : Nat) (d : Nat)
    (hzd : t.zoneDelegates = some (tag, [d]))
    (hge : 0 ≤ s.delegates d t.type) :
    (zoneUpdateTaskCount t 1 s).1 = t ∧
    (zoneUpdateTaskCount t 1 s).2.2 = .ok () ∧
    (∀ d' ty', (zoneUpdateTaskCount t 1 s).2.1.delegates d' ty' =
      if d' = d ∧ ty' = t.type then s.delegates d t.type + 1
      else s.delegates d' ty') := by
  have heff := delegateUpdate_effect d t.type 1 s (by omega)
  unfold zoneUpdateTaskCount
  rw [hzd]
  simp only [updateCountLoop]
  rcases hd : delegateUpdateTaskCount d t.type 1 s with ⟨s1, r⟩
  rw [hd] at heff
  replace heff : r = .ok () ∧ ∀ d' ty', s1.delegates d' ty' =
      if d' = d ∧ ty' = t.type then s.delegates d t.type + 1
      else s.delegates d' ty' := heff
  obtain ⟨hr, hs1⟩ := heff
  subst hr
  exact ⟨by simp, rfl, hs1⟩

/-- The task as it stands right after `runTask`'s `_transitionTo(running,
scheduled)` and `task.runCount++` (zone.ts lines 891-893). -/
def bumpTask (task : TaskRec) : TaskRec :=
  {task with state := TaskState.running, runCount := task.runCount + 1}

/-- The task as `runTask` hands it to the delegate `invokeTask` dispatch:
additionally, for a one-shot macro task the cancel function has been
cleared (zone.ts lines 900-902). -/
def prepTask (task : TaskRec) : TaskRec :=
  if (bumpTask task).type = TaskType.macroTask ∧ (bumpTask task).data.isSome ∧
     (bumpTask task).isPeriodicData = false
  then {bumpTask task with hasCancelFn := false} else bumpTask task

theorem runTask_to_rest (oit : InvokeTaskFn) (hErr : HandleErrorFn)
    (z : Zone) (task : TaskRec) (s : ZState)
    (hz : task.zone = some z) (hst : task.state = TaskState.scheduled) :
    Zone.runTask oit hErr z task s =
      runTaskRest oit hErr true s.currentTask (prepTask task)
        {s with currentTask := some (bumpTask task), frame := z :: s.frame} := by
  have h1 : ¬ (task.zone ≠ some z) := by simp [hz]
  have h2 : ¬ (task.state = TaskState.notScheduled ∧
      task.type = TaskType.eventTask) := by simp [hst]
  have hguard : decide (¬ task.state = TaskState.running) = true := by
    simp [hst]
  have htr : transitionTo task .running .scheduled none =
      .ok {task with state := TaskState.running} := by
    unfold transitionTo
    rw [if_pos (Or.inl hst)]
    rfl
  simp only [Zone.runTask]
  rw [if_neg h1, if_neg h2, hguard, htr]
  rfl

theorem runTaskRest_ok_shape (oit : InvokeTaskFn) (hErr : HandleErrorFn)
    (g : Bool) (prev : Option TaskRec) (t3 : TaskRec) (s1 : ZState)
    (hb1 : ∀ t u, (oit t u).1 = t)
    (hb3 : ∀ t u, ∃ v, (oit t u).2.2 = Except.ok v) :
    ∃ v, runTaskRest oit hErr g prev t3 s1 =
      runTaskFinally g prev t3 ((oit t3 s1).2.1) (Except.ok v) := by
  obtain ⟨v, hv⟩ := hb3 t3 s1
  have ht := hb1 t3 s1
  refine ⟨v, ?_⟩
  unfold runTaskRest
  rcases ho : oit t3 s1 with ⟨t4, s2, r⟩
  rw [ho] at hv ht
  replace hv : r = Except.ok v := hv
  replace ht : t4 = t3 := ht
  subst hv
  subst ht
  rfl

theorem runTaskFinally_periodic (prev : Option TaskRec) (t3 : TaskRec)
    (u : ZState) (v : JSVal)
    (hev : t3.type = TaskType.eventTask ∨ t3.isPeriodicData = true)
    (hst : t3.state = TaskState.running) :
    runTaskFinally true prev t3 u (Except.ok v) =
      ({t3 with state := TaskState.scheduled},
       {u with frame := u.frame.tail, currentTask := prev}, Except.ok v) := by
  have hA : t3.state ≠ TaskState.notScheduled ∧ t3.state ≠ TaskState.unknown := by
    rw [hst]; exact ⟨by decide, by decide⟩
  have htr : transitionTo t3 .scheduled .running none =
      .ok {t3 with state := TaskState.scheduled} := by
    unfold transitionTo
    rw [if_pos (Or.inl hst)]
    rfl
  unfold runTaskFinally runTaskUnwind
  rw [if_pos hA, if_pos hev]
  rw [if_pos rfl, htr]

theorem runTaskFinally_oneShot (prev : Option TaskRec) (t3 : TaskRec)
    (u : ZState) (v : JSVal) (tag : Nat) (ds : List Nat)
    (hnev : ¬(t3.type = TaskType.eventTask ∨ t3.isPeriodicData = true))
    (hst : t3.state = TaskState.running)
    (hzd : t3.zoneDelegates = some (tag, ds)) (hnd : ds.Nodup)
    (hge : ∀ d ∈ ds, 1 ≤ u.delegates d t3.type) :
    (runTaskFinally true prev t3 u (Except.ok v)).1 =
      {t3 with runCount := 0, state := TaskState.notScheduled,
               zoneDelegates := none} ∧
    (runTaskFinally true prev t3 u (Except.ok v)).2.2 = Except.ok v ∧
    (∀ d ty', (runTaskFinally true prev t3 u (Except.ok v)).2.1.delegates d ty' =
      if d ∈ ds ∧ ty' = t3.type then u.delegates d ty' - 1
      else u.delegates d ty') ∧
    (runTaskFinally true prev t3 u (Except.ok v)).2.1.frame = u.frame.tail ∧
    (runTaskFinally true prev t3 u (Except.ok v)).2.1.currentTask = prev := by
  have hA : t3.state ≠ TaskState.notScheduled ∧ t3.state ≠ TaskState.unknown := by
    rw [hst]; exact ⟨by decide, by decide⟩
  obtain ⟨hzt, hzo, hzdel⟩ := zoneUpdate_dec {t3 with runCount := 0} u tag ds
    hzd hnd hge
  rcases hzq : zoneUpdateTaskCount {t3 with runCount := 0} (-1) u with ⟨t2, s1, r⟩
  rw [hzq] at hzt hzo hzdel
  replace hzt : t2 = {t3 with runCount := 0, zoneDelegates := none} := hzt
  replace hzo : r = Except.ok () := hzo
  subst hzo
  subst hzt
  replace hzdel : ∀ (d : Nat) (ty' : TaskType), s1.delegates d ty' =
      if d ∈ ds ∧ ty' = t3.type then u.delegates d ty' - 1
      else u.delegates d ty' := hzdel
  have htr2 : transitionTo {t3 with runCount := 0, zoneDelegates := none}
      .notScheduled .running (some .notScheduled) =
      .ok {t3 with runCount := 0, zoneDelegates := none,
                   state := TaskState.notScheduled} := by
    unfold transitionTo
    rw [if_pos (Or.inl hst)]
    rfl
  have hun : runTaskUnwind true t3 u =
      ({t3 with runCount := 0, zoneDelegates := none,
                state := TaskState.notScheduled}, s1, Except.ok ()) := by
    unfold runTaskUnwind
    rw [if_pos hA, if_neg hnev, hzq]
    show (match transitionTo {t3 with runCount := 0, zoneDelegates := none}
        TaskState.notScheduled TaskState.running (some TaskState.notScheduled) with
      | Except.ok t3' => (t3', s1, Except.ok ())
      | Except.error e =>
        ({t3 with runCount := 0, zoneDelegates := none}, s1, Except.error e)) =
      ({t3 with runCount := 0, zoneDelegates := none,
                state := TaskState.notScheduled}, s1, Except.ok ())
    rw [htr2]
  have hpc := zoneUpdate_preserves {t3 with runCount := 0} (-1) u
  rw [hzq] at hpc
  replace hpc : preservesCore u s1 := hpc
  unfold runTaskFinally
  rw [hun]
  refine ⟨rfl, rfl, fun d ty' => hzdel d ty', ?_, rfl⟩
  show s1.frame.tail = u.frame.tail
  rw [hpc.1]

theorem scheduleTask_success (d : Nat) (ret : Bool) (z : Zone) (t0 : TaskRec)
    (s : ZState) (h1 : t0.state = TaskState.notScheduled) (h2 : t0.zone = none)
    (hge : 0 ≤ s.delegates d t0.type) :
    (Zone.scheduleTask (dschedReg d) (logHandleError ret) z t0 s).1 =
      {t0 with state := TaskState.scheduled,
               zoneDelegates := some (s.nextId, [d]), zone := some z} ∧
    (Zone.scheduleTask (dschedReg d) (logHandleError ret) z t0 s).2.2 =
      .ok () ∧
    (∀ d' ty',
      ((Zone.scheduleTask (dschedReg d) (logHandleError ret) z t0 s).2.1).delegates d' ty' =
        if d' = d ∧ ty' = t0.type then s.delegates d t0.type + 1
        else s.delegates d' ty') ∧
    ((Zone.scheduleTask (dschedReg d) (logHandleError ret) z t0 s).2.1).frame =
      s.frame ∧
    ((Zone.scheduleTask (dschedReg d) (logHandleError ret) z t0 s).2.1).currentTask =
      s.currentTask := by
  have htr : transitionTo t0 .scheduling .notScheduled none =
      .ok {t0 with state := TaskState.scheduling} := by
    unfold transitionTo
    rw [if_pos (Or.inl h1)]
    rfl
  have hnn : (0:Int) ≤ s.delegates d t0.type + 1 := by omega
  have heff := delegateUpdate_effect d t0.type 1 {s with nextId := s.nextId + 1} hnn
  have hpre := delegateUpdate_preserves d t0.type 1 {s with nextId := s.nextId + 1}
  have key : Zone.scheduleTask (dschedReg d) (logHandleError ret) z t0 s =
      ({t0 with state := TaskState.scheduled,
                zoneDelegates := some (s.nextId, [d]), zone := some z},
       (delegateUpdateTaskCount d t0.type 1 {s with nextId := s.nextId + 1}).1,
       Except.ok ()) := by
    simp only [Zone.scheduleTask, scheduleCheck, h2, scheduleTaskBody]
    rw [htr]
    simp only [dschedReg, decide_eq_true_eq, eq_self_iff_true, if_true,
      zoneUpdateTaskCount, updateCountLoop]
    rcases hq : delegateUpdateTaskCount d t0.type 1 {s with nextId := s.nextId + 1}
        with ⟨sd, rr⟩
    rw [hq] at heff
    replace hok : rr = Except.ok () := heff.1
    subst hok
    rfl
  rw [key]
  rcases hq : delegateUpdateTaskCount d t0.type 1 {s with nextId := s.nextId + 1}
      with ⟨sd, rr⟩
  rw [hq] at heff hpre
  refine ⟨rfl, rfl, fun d' ty' => ?_, ?_, ?_⟩
  · exact heff.2 d' ty'
  · exact hpre.1
  · exact hpre.2.1

theorem prepTask_fields (task : TaskRec) :
    (prepTask task).state = TaskState.running ∧
    (prepTask task).type = task.type ∧
    (prepTask task).isPeriodicData = task.isPeriodicData ∧
    (prepTask task).runCount = task.runCount + 1 ∧
    (prepTask task).zoneDelegates = task.zoneDelegates := by
  unfold prepTask bumpTask TaskRec.isPeriodicData
  split <;> exact ⟨rfl, rfl, rfl, rfl, rfl⟩

/-- C1: for a task run via `runTask` from state `scheduled`, with a
`invokeTask` dispatch that hands the task back unchanged, leaves the
counters alone and returns normally (so the state after the callback is
`running`):
(a) an eventTask or periodic macroTask is transitioned from `running` back
to `scheduled`, its run count is the entry count plus one (hence ≥ 1 from
a fresh schedule) and the per-delegate counters are unchanged;
(b) a one-shot task gets `runCount` reset to 0, the counter of every
delegate in its `zoneDelegates` list decremented by one (others untouched)
and is transitioned to `notScheduled`;
(c) a schedule-then-run round trip on a fresh non-periodic task leaves
`state = notScheduled`, `runCount = 0` and all counters as they started. -/
theorem runTask_lifecycle
    (oit : InvokeTaskFn) (ret : Bool) (z : Zone) (s : ZState)
    (hb1 : ∀ t u, (oit t u).1 = t)
    (hb2 : ∀ t u, ((oit t u).2.1).delegates = u.delegates)
    (hb3 : ∀ t u, ∃ v, (oit t u).2.2 = Except.ok v) :
    (∀ task, task.zone = some z → task.state = TaskState.scheduled →
      (task.type = TaskType.eventTask ∨ task.isPeriodicData = true) →
      ((Zone.runTask oit (logHandleError ret) z task s).1.state =
         TaskState.scheduled ∧
       (Zone.runTask oit (logHandleError ret) z task s).1.runCount =
         task.runCount + 1 ∧
       (0 ≤ task.runCount →
         1 ≤ (Zone.runTask oit (logHandleError ret) z task s).1.runCount) ∧
       ((Zone.runTask oit (logHandleError ret) z task s).2.1).delegates =
         s.delegates)) ∧
    (∀ task tag ds, task.zone = some z → task.state = TaskState.scheduled →
      ¬(task.type = TaskType.eventTask ∨ task.isPeriodicData = true) →
      task.zoneDelegates = some (tag, ds) → ds.Nodup →
      (∀ d ∈ ds, 1 ≤ s.delegates d task.type) →
      ((Zone.runTask oit (logHandleError ret) z task s).1.state =
         TaskState.notScheduled ∧
       (Zone.runTask oit (logHandleError ret) z task s).1.runCount = 0 ∧
       (Zone.runTask oit (logHandleError ret) z task s).1.zoneDelegates = none ∧
       (∀ d ∈ ds,
         ((Zone.runTask oit (logHandleError ret) z task s).2.1).delegates d
           task.type = s.delegates d task.type - 1) ∧
       (∀ d ty', ¬(d ∈ ds ∧ ty' = task.type) →
         ((Zone.runTask oit (logHandleError ret) z task s).2.1).delegates d
           ty' = s.delegates d ty'))) ∧
    (∀ t0 d, t0.state = TaskState.notScheduled → t0.zone = none →
      t0.runCount = 0 →
      ¬(t0.type = TaskType.eventTask ∨ t0.isPeriodicData = true) →
      0 ≤ s.delegates d t0.type →
      (match Zone.scheduleTask (dschedReg d) (logHandleError ret) z t0 s with
       | (t1, s1, _) =>
         (match Zone.runTask oit (logHandleError ret) z t1 s1 with
          | (t2, s2, _) =>
            t2.state = TaskState.notScheduled ∧ t2.runCount = 0 ∧
            (∀ d' ty', s2.delegates d' ty' = s.delegates d' ty')))) := by
  have main_b : ∀ (task : TaskRec) (s' : ZState) (tag : Nat) (ds : List Nat),
      task.zone = some z → task.state = TaskState.scheduled →
      ¬(task.type = TaskType.eventTask ∨ task.isPeriodicData = true) →
      task.zoneDelegates = some (tag, ds) → ds.Nodup →
      (∀ d ∈ ds, 1 ≤ s'.delegates d task.type) →
      ((Zone.runTask oit (logHandleError ret) z task s').1.state =
         TaskState.notScheduled ∧
       (Zone.runTask oit (logHandleError ret) z task s').1.runCount = 0 ∧
       (Zone.runTask oit (logHandleError ret) z task s').1.zoneDelegates = none ∧
       (∀ d ty',
         ((Zone.runTask oit (logHandleError ret) z task s').2.1).delegates d ty' =
         if d ∈ ds ∧ ty' = task.type then s'.delegates d ty' - 1
         else s'.delegates d ty')) := by
    intro task s' tag ds hz hst hnev hzd hnd hge
    obtain ⟨hpS, hpT, hpP, hpR, hpZ⟩ := prepTask_fields task
    have hkey := runTask_to_rest oit (logHandleError ret) z task s' hz hst
    obtain ⟨v, hrest⟩ := runTaskRest_ok_shape oit (logHandleError ret) true
      s'.currentTask (prepTask task)
      {s' with currentTask := some (bumpTask task), frame := z :: s'.frame}
      hb1 hb3
    have hUdel : ((oit (prepTask task)
        {s' with currentTask := some (bumpTask task),
                 frame := z :: s'.frame}).2.1).delegates = s'.delegates := by
      rw [hb2]
    have hnev' : ¬((prepTask task).type = TaskType.eventTask ∨
        (prepTask task).isPeriodicData = true) := by
      rw [hpT, hpP]; exact hnev
    have hzd' : (prepTask task).zoneDelegates = some (tag, ds) := by
      rw [hpZ]; exact hzd
    have hgeU : ∀ d ∈ ds, 1 ≤ ((oit (prepTask task)
        {s' with currentTask := some (bumpTask task),
                 frame := z :: s'.frame}).2.1).delegates d (prepTask task).type := by
      intro d hd
      rw [hUdel, hpT]
      exact hge d hd
    obtain ⟨c1, c2, c3, c4, c5⟩ := runTaskFinally_oneShot s'.currentTask
      (prepTask task)
      ((oit (prepTask task) {s' with currentTask := some (bumpTask task), frame := z :: s'.frame}).2.1) v tag ds hnev' hpS hzd' hnd hgeU
    rw [hkey, hrest]
    refine ⟨by rw [c1], by rw [c1], by rw [c1], ?_⟩
    intro d ty'
    rw [c3 d ty', hUdel, hpT]
  refine ⟨?_, ?_, ?_⟩
  · intro task hz hst hev
    obtain ⟨hpS, hpT, hpP, hpR, hpZ⟩ := prepTask_fields task
    have hkey := runTask_to_rest oit (logHandleError ret) z task s hz hst
    obtain ⟨v, hrest⟩ := runTaskRest_ok_shape oit (logHandleError ret) true
      s.currentTask (prepTask task)
      {s with currentTask := some (bumpTask task), frame := z :: s.frame}
      hb1 hb3
    have hev' : (prepTask task).type = TaskType.eventTask ∨
        (prepTask task).isPeriodicData = true := by
      rw [hpT, hpP]; exact hev
    have hfin := runTaskFinally_periodic s.currentTask (prepTask task)
      ((oit (prepTask task) {s with currentTask := some (bumpTask task), frame := z :: s.frame}).2.1) v hev' hpS
    rw [hkey, hrest, hfin]
    refine ⟨rfl, ?_, ?_, ?_⟩
    · show (prepTask task).runCount = task.runCount + 1
      exact hpR
    · intro h0
      show 1 ≤ (prepTask task).runCount
      rw [hpR]; omega
    · show ((oit (prepTask task) {s with currentTask := some (bumpTask task), frame := z :: s.frame}).2.1).delegates = s.delegates
      rw [hb2]
  · intro task tag ds hz hst hnev hzd hnd hge
    obtain ⟨c1, c2, c3, c4⟩ := main_b task s tag ds hz hst hnev hzd hnd hge
    refine ⟨c1, c2, c3, ?_, ?_⟩
    · intro d hd
      rw [c4 d task.type, if_pos ⟨hd, rfl⟩]
    · intro d ty' hne
      rw [c4 d ty', if_neg hne]
  · intro t0 d h1 h2 h3 hnev hge
    obtain ⟨sc1, sc2, sc3, sc4, sc5⟩ := scheduleTask_success d ret z t0 s h1 h2 hge
    rcases hs : Zone.scheduleTask (dschedReg d) (logHandleError ret) z t0 s with ⟨t1, s1, r1⟩
    rw [hs] at sc1 sc2 sc3 sc4 sc5
    replace sc1 : t1 = {t0 with state := TaskState.scheduled, zoneDelegates := some (s.nextId, [d]), zone := some z} := sc1
    subst sc1
    replace sc3 : ∀ d2 ty2, s1.delegates d2 ty2 = if d2 = d ∧ ty2 = t0.type then s.delegates d t0.type + 1 else s.delegates d2 ty2 := sc3
    have hnev1 : ¬(({t0 with state := TaskState.scheduled, zoneDelegates := some (s.nextId, [d]), zone := some z} : TaskRec).type = TaskType.eventTask ∨ ({t0 with state := TaskState.scheduled, zoneDelegates := some (s.nextId, [d]), zone := some z} : TaskRec).isPeriodicData = true) := by
      simpa [TaskRec.isPeriodicData] using hnev
    have hge1 : ∀ d2 ∈ [d], 1 ≤ s1.delegates d2 ({t0 with state := TaskState.scheduled, zoneDelegates := some (s.nextId, [d]), zone := some z} : TaskRec).type := by
      intro d2 hd2
      rw [List.mem_singleton] at hd2
      show 1 ≤ s1.delegates d2 t0.type
      rw [hd2, sc3 d t0.type, if_pos ⟨rfl, rfl⟩]
      omega
    obtain ⟨c1, c2, c3, c4⟩ := main_b {t0 with state := TaskState.scheduled, zoneDelegates := some (s.nextId, [d]), zone := some z} s1 s.nextId [d] rfl rfl hnev1 rfl (by simp) hge1
    have hdel : ∀ d2 ty2, (Zone.runTask oit (logHandleError ret) z {t0 with state := TaskState.scheduled, zoneDelegates := some (s.nextId, [d]), zone := some z} s1).2.1.delegates d2 ty2 = s.delegates d2 ty2 := by
      intro d2 ty2
      rw [c4 d2 ty2]
      by_cases hc : d2 ∈ [d] ∧ ty2 = ({t0 with state := TaskState.scheduled, zoneDelegates := some (s.nextId, [d]), zone := some z} : TaskRec).type
      · rw [if_pos hc]
        obtain ⟨hd2, hty⟩ := hc
        rw [List.mem_singleton] at hd2
        replace hty : ty2 = t0.type := hty
        show s1.delegates d2 ty2 - 1 = s.delegates d2 ty2
        rw [hd2, hty, sc3 d t0.type, if_pos ⟨rfl, rfl⟩]
        omega
      · rw [if_neg hc]
        replace hc : ¬(d2 = d ∧ ty2 = t0.type) := by simpa using hc
        show s1.delegates d2 ty2 = s.delegates d2 ty2
        rw [sc3 d2 ty2, if_neg hc]
    exact ⟨c1, c2, hdel⟩

theorem runTask_lifecycle_witness :
    (match Zone.scheduleTask (dschedReg 0) (logHandleError true) Zone.root
        (mkTask .macroTask .notScheduled "w1" none none none) initState with
     | (t1, s1, _) =>
       (match Zone.runTask (fun t u => (t, u, Except.ok none))
           (logHandleError true) Zone.root t1 s1 with
        | (t2, s2, _) =>
          t2.state = TaskState.notScheduled ∧ t2.runCount = 0 ∧
          (∀ d' ty', s2.delegates d' ty' = initState.delegates d' ty'))) :=
  (runTask_lifecycle (fun t u => (t, u, Except.ok none)) true Zone.root
      initState (fun _ _ => rfl) (fun _ _ => rfl)
      (fun _ _ => ⟨none, rfl⟩)).2.2
    (mkTask .macroTask .notScheduled "w1" none none none) 0
    rfl rfl rfl (by decide) (by decide)

theorem runTask_periodic_runCount (oit : InvokeTaskFn) (hErr : HandleErrorFn)
    (z : Zone) (task : TaskRec) (s : ZState)
    (hb1 : ∀ t u, (oit t u).1 = t)
    (hb3 : ∀ t u, ∃ v, (oit t u).2.2 = Except.ok v)
    (hz : task.zone = some z) (hst : task.state = TaskState.scheduled)
    (hev : task.type = TaskType.eventTask ∨ task.isPeriodicData = true) :
    (Zone.runTask oit hErr z task s).1.state = TaskState.scheduled ∧
    (Zone.runTask oit hErr z task s).1.runCount = task.runCount + 1 := by
  obtain ⟨hpS, hpT, hpP, hpR, hpZ⟩ := prepTask_fields task
  have hkey := runTask_to_rest oit hErr z task s hz hst
  obtain ⟨v, hrest⟩ := runTaskRest_ok_shape oit hErr true s.currentTask
    (prepTask task)
    {s with currentTask := some (bumpTask task), frame := z :: s.frame} hb1 hb3
  have hev2 : (prepTask task).type = TaskType.eventTask ∨
      (prepTask task).isPeriodicData = true := by
    rw [hpT, hpP]; exact hev
  have hfin := runTaskFinally_periodic s.currentTask (prepTask task)
    ((oit (prepTask task) {s with currentTask := some (bumpTask task), frame := z :: s.frame}).2.1) v hev2 hpS
  rw [hkey, hrest, hfin]
  refine ⟨rfl, ?_⟩
  show (prepTask task).runCount = task.runCount + 1
  exact hpR

/-- C9: firing a task through the static `ZoneTask.invokeTask` entry point
increments `runCount` once there and a second time inside `Zone.runTask`,
so one host-driven firing of an eventTask or periodic task raises `runCount`
by 2, while a direct `Zone.runTask` call raises it by 1. -/
theorem invokeTask_double_increment (drain : ZState → ZState)
    (oit : InvokeTaskFn) (hErr : HandleErrorFn) (z : Zone) (task : TaskRec)
    (s : ZState)
    (hb1 : ∀ t u, (oit t u).1 = t)
    (hb3 : ∀ t u, ∃ v, (oit t u).2.2 = Except.ok v)
    (hz : task.zone = some z) (hst : task.state = TaskState.scheduled)
    (hev : task.type = TaskType.eventTask ∨ task.isPeriodicData = true) :
    (ZoneTask.invokeTask drain oit hErr task s).1.runCount =
      task.runCount + 2 ∧
    (Zone.runTask oit hErr z task s).1.runCount = task.runCount + 1 := by
  have hmain := runTask_periodic_runCount oit hErr z
    {task with runCount := task.runCount + 1}
    {s with nested := s.nested + 1} hb1 hb3 hz hst hev
  have hfst : (ZoneTask.invokeTask drain oit hErr task s).1 =
      (Zone.runTask oit hErr z {task with runCount := task.runCount + 1}
        {s with nested := s.nested + 1}).1 := by
    simp only [ZoneTask.invokeTask]
    rw [show ({task with runCount := task.runCount + 1} : TaskRec).zone =
      some z from hz]
  rw [hfst, hmain.2]
  refine ⟨?_, (runTask_periodic_runCount oit hErr z task s hb1 hb3 hz hst hev).2⟩
  show task.runCount + 1 + 1 = task.runCount + 2
  omega

theorem invokeTask_double_increment_witness :
    (ZoneTask.invokeTask id (fun t u => (t, u, Except.ok none))
        (logHandleError true)
        (mkTask .eventTask .scheduled "w9" (some Zone.root) none none)
        initState).1.runCount = 2 ∧
    (Zone.runTask (fun t u => (t, u, Except.ok none)) (logHandleError true)
        Zone.root (mkTask .eventTask .scheduled "w9" (some Zone.root) none none)
        initState).1.runCount = 1 :=
  invokeTask_double_increment id (fun t u => (t, u, Except.ok none))
    (logHandleError true) Zone.root
    (mkTask .eventTask .scheduled "w9" (some Zone.root) none none) initState
    (fun _ _ => rfl) (fun _ _ => ⟨none, rfl⟩) rfl rfl (Or.inl rfl)

/-- C10: if the delegate `scheduleTask` dispatch throws, `Zone.scheduleTask`
moves the task to `unknown`, routes the error through the `handleError`
chain and rethrows it to the caller; the binding `task.zone := this` made
before the dispatch ran is not undone, and the per-delegate counters are
not incremented. -/
theorem scheduleTask_hook_throw (dsched : TaskHookFn) (ret : Bool) (err : Err)
    (z : Zone) (task : TaskRec) (s : ZState)
    (hds : ∀ t u, dsched t u = (t, u, Except.error err))
    (h1 : task.state = TaskState.notScheduled)
    (h2 : task.zone = none) :
    (Zone.scheduleTask dsched (logHandleError ret) z task s).1.state =
      TaskState.unknown ∧
    (Zone.scheduleTask dsched (logHandleError ret) z task s).1.zone =
      some z ∧
    (Zone.scheduleTask dsched (logHandleError ret) z task s).2.2 =
      Except.error err ∧
    ((Zone.scheduleTask dsched (logHandleError ret) z task s).2.1).delegates =
      s.delegates ∧
    ((Zone.scheduleTask dsched (logHandleError ret) z task s).2.1).log =
      s.log ++ [ZEvent.handledError err] := by
  have htr : transitionTo task .scheduling .notScheduled none =
      .ok {task with state := TaskState.scheduling} := by
    unfold transitionTo
    rw [if_pos (Or.inl h1)]
    rfl
  have key : Zone.scheduleTask dsched (logHandleError ret) z task s =
      ({task with state := TaskState.unknown,
                  zoneDelegates := some (s.nextId, []), zone := some z},
       {s with nextId := s.nextId + 1,
               log := s.log ++ [ZEvent.handledError err]},
       Except.error err) := by
    simp only [Zone.scheduleTask, scheduleCheck, h2, scheduleTaskBody]
    rw [htr]
    simp only [hds, transitionTo, logHandleError]
    rfl
  rw [key]
  exact ⟨rfl, rfl, rfl, rfl, rfl⟩

theorem scheduleTask_hook_throw_witness :
    ((Zone.scheduleTask (fun t u => (t, u, Except.error (Err.userErr 7)))
        (logHandleError false) Zone.root
        (mkTask .macroTask .notScheduled "wA" none none none)
        initState).1.state = TaskState.unknown ∧
     (Zone.scheduleTask (fun t u => (t, u, Except.error (Err.userErr 7)))
        (logHandleError false) Zone.root
        (mkTask .macroTask .notScheduled "wA" none none none)
        initState).1.zone = some Zone.root ∧
     (Zone.scheduleTask (fun t u => (t, u, Except.error (Err.userErr 7)))
        (logHandleError false) Zone.root
        (mkTask .macroTask .notScheduled "wA" none none none)
        initState).2.2 = Except.error (Err.userErr 7) ∧
     ((Zone.scheduleTask (fun t u => (t, u, Except.error (Err.userErr 7)))
        (logHandleError false) Zone.root
        (mkTask .macroTask .notScheduled "wA" none none none)
        initState).2.1).delegates = initState.delegates ∧
     ((Zone.scheduleTask (fun t u => (t, u, Except.error (Err.userErr 7)))
        (logHandleError false) Zone.root
        (mkTask .macroTask .notScheduled "wA" none none none)
        initState).2.1).log =
       initState.log ++ [ZEvent.handledError (Err.userErr 7)]) :=
  scheduleTask_hook_throw (fun t u => (t, u, Except.error (Err.userErr 7)))
    false (Err.userErr 7) Zone.root
    (mkTask .macroTask .notScheduled "wA" none none none) initState
    (fun _ _ => rfl) rfl rfl

theorem runQueueTasks_spec (env : Nat → ExecResult) :
    ∀ (q : List Nat) (s : MicroState),
      runQueueTasks env q s =
        {s with queue := s.queue ++ roundSpawn env q,
                log := s.log ++ roundEvents env q}
  | [], s => by
    show s = _
    simp [roundSpawn, roundEvents, concatMapL]
  | t :: rest, s => by
    show runQueueTasks env rest
      {s with queue := s.queue ++ (env t).spawned,
              log := s.log ++ (MEvent.ran t :: (match (env t).err with
                | some e => [MEvent.unhandled e]
                | none => []))} = _
    rw [runQueueTasks_spec env rest]
    simp [roundSpawn, roundEvents, concatMapL, List.append_assoc]

theorem drainWhileLoop_spec (env : Nat → ExecResult) (fuel : Nat) :
    ∀ (s s1 : MicroState), drainWhileLoop env fuel s = some s1 →
      ∃ tr, drainSpecTrace env fuel s.queue = some tr ∧
        s1.log = s.log ++ tr ∧ s1.queue = [] ∧ s1.draining = s.draining := by
  induction fuel with
  | zero =>
    intro s s1 h
    by_cases hq : s.queue = []
    · rw [drainWhileLoop, if_pos hq] at h
      replace h : s = s1 := Option.some.inj h
      subst h
      refine ⟨[], ?_, by simp, hq, rfl⟩
      rw [drainSpecTrace, if_pos hq]
    · rw [drainWhileLoop, if_neg hq] at h
      replace h : (none : Option MicroState) = some s1 := h
      exact Option.noConfusion h
  | succ fuel2 ih =>
    intro s s1 h
    by_cases hq : s.queue = []
    · rw [drainWhileLoop, if_pos hq] at h
      replace h : s = s1 := Option.some.inj h
      subst h
      refine ⟨[], ?_, by simp, hq, rfl⟩
      rw [drainSpecTrace, if_pos hq]
    · rw [drainWhileLoop, if_neg hq] at h
      replace h : drainWhileLoop env fuel2
          (runQueueTasks env s.queue {s with queue := []}) = some s1 := h
      rw [runQueueTasks_spec env] at h
      obtain ⟨tr, htr, hlog, hque, hdr⟩ := ih _ s1 h
      replace htr : drainSpecTrace env fuel2 ([] ++ roundSpawn env s.queue) =
        some tr := htr
      rw [List.nil_append] at htr
      replace hlog : s1.log = (s.log ++ roundEvents env s.queue) ++ tr := hlog
      replace hdr : s1.draining = s.draining := hdr
      refine ⟨roundEvents env s.queue ++ tr, ?_, ?_, hque, hdr⟩
      · rw [drainSpecTrace, if_neg hq]
        show (drainSpecTrace env fuel2 (roundSpawn env s.queue)).map
          (fun tr => roundEvents env s.queue ++ tr) =
          some (roundEvents env s.queue ++ tr)
        rw [htr]
        rfl
      · rw [hlog, List.append_assoc]

/-- C7: a terminating `drainMicroTaskQueue` call on a non-draining state
runs the queued microtasks in strict insertion order round by round (each
round processing exactly the tasks enqueued during the previous one, so
tasks enqueued during the drain run in FIFO order in a later outer-loop
iteration), dispatches every error thrown by a drained task to the
`onUnhandledError` hook without ever rethrowing it (the trace continues
past each `unhandled` event), and ends with the queue empty, a single
`microtaskDrainDone` call, and the draining flag cleared. -/
theorem drain_microtask_queue_spec (env : Nat → ExecResult) (fuel : Nat)
    (s s1 : MicroState) (hd : s.draining = false)
    (h : drainMicroTaskQueue env fuel s = some s1) :
    ∃ tr, drainSpecTrace env fuel s.queue = some tr ∧
      s1.log = s.log ++ tr ++ [MEvent.drainDone] ∧
      s1.queue = [] ∧ s1.draining = false := by
  unfold drainMicroTaskQueue at h
  rw [if_neg (by simp [hd])] at h
  rcases hw : drainWhileLoop env fuel {s with draining := true} with _ | s2
  · rw [hw] at h
    exact Option.noConfusion h
  · rw [hw] at h
    replace h : {s2 with log := s2.log ++ [MEvent.drainDone], draining := false} = s1 := Option.some.inj h
    obtain ⟨tr, htr, hlog, hque, hdr⟩ :=
      drainWhileLoop_spec env fuel {s with draining := true} s2 hw
    replace htr : drainSpecTrace env fuel s.queue = some tr := htr
    replace hlog : s2.log = s.log ++ tr := hlog
    refine ⟨tr, htr, ?_, ?_, ?_⟩
    · rw [← h]
      show s2.log ++ [MEvent.drainDone] = s.log ++ tr ++ [MEvent.drainDone]
      rw [hlog]
    · rw [← h]
      show s2.queue = []
      exact hque
    · rw [← h]

theorem drain_microtask_queue_spec_witness :
    ∃ tr, drainSpecTrace
        (fun t => if t = 0 then ⟨[1], some 5⟩ else ⟨[], none⟩) 3
        (MicroState.mk [0] false []).queue = some tr ∧
      (MicroState.mk [] false
        [MEvent.ran 0, MEvent.unhandled 5, MEvent.ran 1,
         MEvent.drainDone]).log =
        (MicroState.mk [0] false []).log ++ tr ++ [MEvent.drainDone] ∧
      (MicroState.mk [] false
        [MEvent.ran 0, MEvent.unhandled 5, MEvent.ran 1,
         MEvent.drainDone]).queue = [] ∧
      (MicroState.mk [] false
        [MEvent.ran 0, MEvent.unhandled 5, MEvent.ran 1,
         MEvent.drainDone]).draining = false :=
  drain_microtask_queue_spec
    (fun t => if t = 0 then ⟨[1], some 5⟩ else ⟨[], none⟩) 3
    (MicroState.mk [0] false [])
    (MicroState.mk [] false
      [MEvent.ran 0, MEvent.unhandled 5, MEvent.ran 1, MEvent.drainDone])
    rfl (by decide)
